import Mathlib

/-
Verification of the per-sensor cleaning & imputation pipeline
(`services/cleaner/pipeline.py`) against its specification.

Modelling conventions:
* `value_mm` / `quality` cells are `Option ℚ`: `none` models a NaN (or a
  non-numeric cell after `pd.to_numeric(..., errors="coerce")`), `some x`
  a numeric value.  Rationals stand in for IEEE doubles; every operation
  the claims depend on (comparisons, max, min/clip, exact preservation,
  mean of a singleton) is exact in both models.
* Timestamps are UTC epoch seconds as `ℕ`.  pandas' `resample('10T')`
  buckets align to midnight; since 600 divides 86400 a bucket start is
  exactly `t - t % 600` in epoch seconds.
* The statsmodels ARIMA estimator is an external numerical library, not
  repository code; it is abstracted as a pair of oracle parameters
  `fit : List ℚ → ModelSpec → Option M` (returning `none` when
  `ARIMA(...).fit()` raises) and `predict : M → ℕ → Option ℚ` (returning
  `none` when `forecast(steps)` raises).  Everything the pipeline itself
  does around those calls is embedded from the source.
* `Config` carries the fields the pipeline reads (`min_value_mm`,
  `max_value_mm`, `min_quality`, `interpolation_limit`, `arima_*`), the
  shape `test_arima.py` constructs.  A missing `quality` column is
  modelled as a column whose cells are all `none`, which the code treats
  identically (the poor-quality mask is all-false either way).
-/

namespace Cleaner

/-! ### Definitions -/

/-- `OUTLIER_FLAG = 1` (pipeline.py line 14). -/
def OUTLIER_FLAG : Nat := 1

/-- `IMPUTED_FLAG = 2` (pipeline.py line 15). -/
def IMPUTED_FLAG : Nat := 2

/-- `POOR_QUALITY_FLAG = 4` (pipeline.py line 16). -/
def POOR_QUALITY_FLAG : Nat := 4

/-- `np.clip` / `Series.clip`: apply the lower bound, then the upper bound. -/
def clip (x lo hi : ℚ) : ℚ := min (max x lo) hi

/-- Configuration fields read by `clean_measurements` and its helpers
(the shape constructed in `test_arima.py`). -/
structure Config where
  min_value_mm : ℚ
  max_value_mm : ℚ
  min_quality : Option ℚ
  interpolation_limit : Nat
  arima_enabled : Bool
  arima_min_train : Nat
  arima_max_order : Nat
  arima_seasonal : Bool
  arima_m : Nat
deriving Repr, DecidableEq

/-- One row of a per-sensor DataFrame: columns `ts`, `value_mm`, `quality`. -/
structure Measurement where
  ts : Nat
  value_mm : Option ℚ
  quality : Option ℚ
deriving Repr, DecidableEq

/-- One row of the raw multi-sensor DataFrame handed to `clean_measurements`. -/
structure RawMeasurement where
  sensor_id : String
  ts : Nat
  value_mm : Option ℚ
  quality : Option ℚ
deriving Repr, DecidableEq

/-- One emitted row of the cleaned DataFrame. -/
structure CleanRow where
  sensor_id : String
  ts : Nat
  value_mm : ℚ
  qc_flags : Nat
  imputation_method : Option String
  version : Nat
deriving Repr, DecidableEq

/-- Build a length-`n` list from an index function (our uniform way of
writing the vectorised pandas expressions pointwise). -/
def seriesMap {α : Type} (n : Nat) (f : Nat → α) : List α := (List.range n).map f

/-- Cell access: `none` outside the list (matches reading a NaN-padded frame). -/
def atOpt {α : Type} (l : List (Option α)) (i : Nat) : Option α := l.getD i none

/-- `df.sort_values("ts")`: insertion sort on the timestamp column. -/
def insertByTs (r : Measurement) : List Measurement → List Measurement
  | [] => [r]
  | x :: xs => if r.ts ≤ x.ts then r :: x :: xs else x :: insertByTs r xs

/-- Sort a per-sensor frame by timestamp. -/
def sortByTs (rows : List Measurement) : List Measurement :=
  rows.foldr insertByTs []

/-- Start of the 10-minute bucket containing epoch-second `t`
(`resample('10T')` boundary). -/
def bucketOf (t : Nat) : Nat := t - t % 600

/-- Insert a bucket key into a sorted duplicate-free key list. -/
def insertKey (k : Nat) : List Nat → List Nat
  | [] => [k]
  | x :: xs =>
    if k < x then k :: x :: xs
    else if k = x then x :: xs
    else x :: insertKey k xs

/-- The distinct bucket keys of a frame, in ascending order (the index
produced by `resample('10T')`, before empty buckets are dropped). -/
def bucketKeys (rows : List Measurement) : List Nat :=
  rows.foldr (fun r ks => insertKey (bucketOf r.ts) ks) []

/-- The rows falling into bucket `k`. -/
def groupRows (rows : List Measurement) (k : Nat) : List Measurement :=
  rows.filter (fun r => bucketOf r.ts == k)

/-- Skip-NaN maximum of a column (`agg 'max'`). -/
def maxOfList : List ℚ → Option ℚ
  | [] => none
  | x :: xs => some (xs.foldl max x)

/-- Skip-NaN mean of a column (`agg 'mean'`); `none` when no numeric cell. -/
def meanOf (l : List ℚ) : Option ℚ :=
  match l with
  | [] => none
  | _ => some ((l.foldl (fun a b => a + b) 0) / (l.length : ℚ))

/-- `_aggregate_10min_windows` (pipeline.py lines 19-73): bucket rows to
10-minute windows, value by skip-NaN `max`, quality by skip-NaN `mean`,
dropping buckets with no numeric value (`dropna(subset=['value_mm'])`).
The `sensor_id`/`variable`/`source` columns are constant plumbing handled
by the caller and are not part of the row model. -/
def aggregate_10min_windows (rows : List Measurement) : List Measurement :=
  if rows.isEmpty then []
  else
    (bucketKeys rows).filterMap (fun k =>
      let grp := groupRows rows k
      match maxOfList (grp.filterMap (fun r => r.value_mm)) with
      | none => none
      | some mx =>
        some { ts := k, value_mm := some mx,
               quality := meanOf (grp.filterMap (fun r => r.quality)) })

/-- The model specification the pipeline passes to the ARIMA constructor:
seasonal `(1,1,1)x(1,1,1,m)` or plain `(maxOrder,1,maxOrder)`
(pipeline.py lines 222-238). -/
inductive ModelSpec where
  | seasonal (m : Nat)
  | simple (maxOrder : Nat)
deriving Repr, DecidableEq

/-- Which model the stage constructs, given the training-set size
(pipeline.py line 222: `cfg.arima_seasonal and len(train_data) >= cfg.arima_m * 2`). -/
def specOf (cfg : Config) (trainLen : Nat) : ModelSpec :=
  if cfg.arima_seasonal && decide (cfg.arima_m * 2 ≤ trainLen) then
    ModelSpec.seasonal cfg.arima_m
  else
    ModelSpec.simple cfg.arima_max_order

/-- `train_data = filled.dropna()` then `.values` (pipeline.py line 213):
the data the ARIMA constructor receives. -/
def arimaTrainData (s : List (Option ℚ)) : List ℚ :=
  (s.filter (fun o => o.isSome)).filterMap (fun o => o)

/-- `series.index[train_mask][-1]` (pipeline.py line 249): position of the
last non-null point, `none` when there is none (in which case the code
raises inside the outer `try` and the stage returns unchanged). -/
def lastValidPos (s : List (Option ℚ)) : Option Nat :=
  (List.range s.length).reverse.find? (fun j => (atOpt s j).isSome)

/-- One iteration of the gap loop (pipeline.py lines 244-272): value and
label assigned at position `i`, given the fitted model `m` and the position
`lp` of the last valid point. -/
def arimaPoint {M : Type} (predict : M → Nat → Option ℚ) (m : M) (cfg : Config)
    (lp : Nat) (s : List (Option ℚ)) (i : Nat) : Option ℚ × Option String :=
  let cur := atOpt s i
  if cur.isSome then (cur, none)
  else if i ≤ lp then (cur, none)
  else if 100 < i - lp then (cur, none)
  else
    match predict m (i - lp) with
    | some v => (some (clip v cfg.min_value_mm cfg.max_value_mm), some "arima_forecast")
    | none => (cur, none)

/-- `_arima_forecast_fill` (pipeline.py lines 196-279).  `fit` abstracts
`ARIMA(train_data, ...).fit()` (`none` = the fit raised, caught by the
outer handler, so the whole stage returns the series unchanged); `predict`
abstracts `fitted_model.forecast(steps)` (`none` = that single forecast
raised, so only that point is skipped). -/
def arima_forecast_fill {M : Type} (fit : List ℚ → ModelSpec → Option M)
    (predict : M → Nat → Option ℚ) (cfg : Config) (s : List (Option ℚ)) :
    List (Option ℚ) × List (Option String) :=
  let n := s.length
  let noLabels : List (Option String) := List.replicate n none
  let trainCount := (s.filter (fun o => o.isSome)).length
  if trainCount < cfg.arima_min_train then (s, noLabels)
  else if s.all (fun o => o.isSome) then (s, noLabels)
  else
    let trainData := arimaTrainData s
    match fit trainData (specOf cfg trainData.length) with
    | none => (s, noLabels)
    | some m =>
      match lastValidPos s with
      | none => (s, noLabels)
      | some lp =>
        let pts := seriesMap n (arimaPoint predict m cfg lp s)
        (pts.map Prod.fst, pts.map Prod.snd)

/-- Lines 123-127: run the forecast stage when `cfg.arima_enabled`, adopt
its series wholesale and copy its labels at the newly-filled positions
into the (initially all-null) `imputation_method` column. -/
def arimaApplied {M : Type} (fit : List ℚ → ModelSpec → Option M)
    (predict : M → Nat → Option ℚ) (cfg : Config) (v : List (Option ℚ)) :
    List (Option ℚ) × List (Option String) :=
  if cfg.arima_enabled then
    let r := arima_forecast_fill fit predict cfg v
    (r.1, seriesMap v.length (fun i =>
      if (atOpt v i).isNone && (atOpt r.1 i).isSome then atOpt r.2 i else none))
  else (v, List.replicate v.length none)

/-- Greatest `j < i` holding a non-null value. -/
def prevValid (v : List (Option ℚ)) (i : Nat) : Option Nat :=
  (List.range i).reverse.find? (fun j => (atOpt v j).isSome)

/-- Least `j > i` holding a non-null value. -/
def nextValid (v : List (Option ℚ)) (i : Nat) : Option Nat :=
  (List.range v.length).find? (fun j => decide (i < j) && (atOpt v j).isSome)

/-- The value `interpolate(method="time")` computes at a null position:
linear in wall-clock time between the surrounding valid points, flat
extension when only one side has data. -/
def interpValue (ts : List Nat) (v : List (Option ℚ)) (i : Nat) : Option ℚ :=
  match prevValid v i, nextValid v i with
  | some p, some q =>
    let tp : ℚ := (ts.getD p 0 : Nat)
    let tq : ℚ := (ts.getD q 0 : Nat)
    let ti : ℚ := (ts.getD i 0 : Nat)
    let vp : ℚ := (atOpt v p).getD 0
    let vq : ℚ := (atOpt v q).getD 0
    some (vp + (vq - vp) * (ti - tp) / (tq - tp))
  | some p, none => some ((atOpt v p).getD 0)
  | none, some q => some ((atOpt v q).getD 0)
  | none, none => none

/-- `limit=cfg.interpolation_limit, limit_direction="both"`: a null point
is fillable when it is within `limit` consecutive nulls of a valid point
on either side. -/
def interpEligible (cfg : Config) (v : List (Option ℚ)) (i : Nat) : Bool :=
  (match prevValid v i with
   | some p => decide (i - p ≤ cfg.interpolation_limit)
   | none => false) ||
  (match nextValid v i with
   | some q => decide (q - i ≤ cfg.interpolation_limit)
   | none => false)

/-- `clean_series.interpolate(method="time", limit=..., limit_direction="both")`
(pipeline.py lines 131-135). -/
def timeInterpolate (cfg : Config) (ts : List Nat) (v : List (Option ℚ)) :
    List (Option ℚ) :=
  seriesMap v.length (fun i =>
    if (atOpt v i).isSome then atOpt v i
    else if interpEligible cfg v i then interpValue ts v i
    else none)

/-- The shared shape of the three non-model cascade stages: fill each
still-null point whose candidate value is defined, record the stage's
label there, and leave every other point and label untouched. -/
def stageFill (fill : Nat → Option ℚ) (tag : String)
    (p : List (Option ℚ) × List (Option String)) :
    List (Option ℚ) × List (Option String) :=
  (seriesMap p.1.length (fun i =>
     if (atOpt p.1 i).isNone && (fill i).isSome then fill i else atOpt p.1 i),
   seriesMap p.1.length (fun i =>
     if (atOpt p.1 i).isNone && (fill i).isSome then some tag else atOpt p.2 i))

/-- Lines 129-140: copy interpolated values into the still-null positions
and label them `"time_interp"`. -/
def interpApplied (cfg : Config) (ts : List Nat)
    (p : List (Option ℚ) × List (Option String)) :
    List (Option ℚ) × List (Option String) :=
  stageFill (fun i => atOpt (timeInterpolate cfg ts p.1) i) "time_interp" p

/-- Hour-of-day of an epoch-second timestamp (`DatetimeIndex.hour`). -/
def hourOf (t : Nat) : Nat := t / 3600 % 24

/-- Ascending insertion (duplicates kept) for the median computation. -/
def insertRat (x : ℚ) : List ℚ → List ℚ
  | [] => [x]
  | y :: ys => if x ≤ y then x :: y :: ys else y :: insertRat x ys

/-- `Series.median()`: middle element of the sorted values, or the mean of
the two middle elements; `none` on an empty series. -/
def medianOf (l : List ℚ) : Option ℚ :=
  let s := l.foldr insertRat []
  let n := s.length
  if n = 0 then none
  else if n % 2 = 1 then some (s.getD (n / 2) 0)
  else some ((s.getD (n / 2 - 1) 0 + s.getD (n / 2) 0) / 2)

/-- The labeled values of the working series whose timestamp falls in hour
`h` (the hour-`h` group of `base_series.groupby(base_series.index.hour)`). -/
def hourValues (ts : List Nat) (v : List (Option ℚ)) (h : Nat) : List ℚ :=
  (List.range v.length).filterMap (fun j =>
    if hourOf (ts.getD j 0) = h then atOpt v j else none)

/-- `hourly_medians[hour]` (pipeline.py line 145), `none` when hour `h`
has no labeled data. -/
def hourMedian (ts : List Nat) (v : List (Option ℚ)) (h : Nat) : Option ℚ :=
  medianOf (hourValues ts v h)

/-- Lines 142-155: fill each still-null point whose hour-of-day has a
defined median, labelling it `"hour_median"`. -/
def hourApplied (ts : List Nat) (p : List (Option ℚ) × List (Option String)) :
    List (Option ℚ) × List (Option String) :=
  stageFill (fun i => hourMedian ts p.1 (hourOf (ts.getD i 0))) "hour_median" p

/-- Lines 157-167: final fallback, fill every remaining null with `0.0`
and label it `"zero_fallback"`. -/
def fallbackApplied (p : List (Option ℚ) × List (Option String)) :
    List (Option ℚ) × List (Option String) :=
  stageFill (fun _ => some 0) "zero_fallback" p

/-- Line 109: `(clean_series < min) | (clean_series > max)`; a NaN compares
false on both sides. -/
def outlierMask (cfg : Config) (v : List (Option ℚ)) : List Bool :=
  v.map (fun o =>
    match o with
    | some x => decide (x < cfg.min_value_mm) || decide (cfg.max_value_mm < x)
    | none => false)

/-- Lines 113-116: `quality < min_quality`, NaN filled with `False`;
all-false when `min_quality` is not configured. -/
def poorMask (cfg : Config) (quality : List (Option ℚ)) : List Bool :=
  match cfg.min_quality with
  | none => List.replicate quality.length false
  | some mq =>
    quality.map (fun o =>
      match o with
      | some q => decide (q < mq)
      | none => false)

/-- Null the positions where the mask holds. -/
def applyNullMask (v : List (Option ℚ)) (mask : List Bool) : List (Option ℚ) :=
  seriesMap v.length (fun i => if mask.getD i false then none else atOpt v i)

/-- Lines 107-119 bundled: the series after both QC nulls together with the
accumulated `OUTLIER`/`POOR_QUALITY` bits. -/
def qcApplied (cfg : Config) (v quality : List (Option ℚ)) :
    List (Option ℚ) × List Nat :=
  let ob := outlierMask cfg v
  let pb := poorMask cfg quality
  (applyNullMask (applyNullMask v ob) pb,
   seriesMap v.length (fun i =>
     (if ob.getD i false then OUTLIER_FLAG else 0) |||
     (if pb.getD i false then POOR_QUALITY_FLAG else 0)))

/-- The four-stage imputation cascade (pipeline.py lines 121-167): forecast
fill, then time interpolation, then hourly medians, then the zero fallback,
threading the working series and the `imputation_method` column. -/
def cascadeApplied {M : Type} (fit : List ℚ → ModelSpec → Option M)
    (predict : M → Nat → Option ℚ) (cfg : Config) (ts : List Nat)
    (v : List (Option ℚ)) : List (Option ℚ) × List (Option String) :=
  fallbackApplied (hourApplied ts (interpApplied cfg ts (arimaApplied fit predict cfg v)))

/-- The candidate output row at position `i` of the sorted frame: the
combination of lines 169-192 (clip, `IMPUTED` bit, row construction and
the `valid_mask` filter) read off at one index. -/
def cleanRowAt {M : Type} (fit : List ℚ → ModelSpec → Option M)
    (predict : M → Nat → Option ℚ) (cfg : Config) (sensor_id : String)
    (ts : List Nat) (v0 quality : List (Option ℚ)) (i : Nat) : Option CleanRow :=
  let qc := qcApplied cfg v0 quality
  let s6 := cascadeApplied fit predict cfg ts qc.1
  let v7 := s6.1.map (fun o => o.map (fun x => clip x cfg.min_value_mm cfg.max_value_mm))
  let flags := seriesMap v0.length (fun j =>
    qc.2.getD j 0 ||| (if (atOpt s6.2 j).isSome then IMPUTED_FLAG else 0))
  (atOpt v7 i).map (fun x =>
    { sensor_id := sensor_id, ts := ts.getD i 0, value_mm := x,
      qc_flags := flags.getD i 0, imputation_method := atOpt s6.2 i,
      version := 1 })

/-- `_clean_sensor_dataframe` (pipeline.py lines 100-193). -/
def clean_sensor_dataframe {M : Type} (fit : List ℚ → ModelSpec → Option M)
    (predict : M → Nat → Option ℚ) (cfg : Config) (sensor_id : String)
    (rows : List Measurement) : List CleanRow :=
  let sorted := sortByTs rows
  (List.range (sorted.map (fun r => r.value_mm)).length).filterMap
    (cleanRowAt fit predict cfg sensor_id (sorted.map (fun r => r.ts))
      (sorted.map (fun r => r.value_mm)) (sorted.map (fun r => r.quality)))

/-- Insert a sensor id into a sorted duplicate-free id list (`groupby`
iterates groups in sorted key order). -/
def insertId (k : String) : List String → List String
  | [] => [k]
  | x :: xs =>
    if k < x then k :: x :: xs
    else if k = x then x :: xs
    else x :: insertId k xs

/-- The distinct sensor ids of a raw frame, in ascending order. -/
def sensorIds (rows : List RawMeasurement) : List String :=
  rows.foldr (fun r ks => insertId r.sensor_id ks) []

/-- Drop the `sensor_id` column of a group. -/
def toMeasurement (r : RawMeasurement) : Measurement :=
  { ts := r.ts, value_mm := r.value_mm, quality := r.quality }

/-- `clean_measurements` (pipeline.py lines 76-97): per sensor, aggregate
to 10-minute windows then clean; concatenate the non-empty results. -/
def clean_measurements {M : Type} (fit : List ℚ → ModelSpec → Option M)
    (predict : M → Nat → Option ℚ) (cfg : Config)
    (rows : List RawMeasurement) : List CleanRow :=
  if rows.isEmpty then []
  else
    (sensorIds rows).flatMap (fun sid =>
      if (aggregate_10min_windows
            ((rows.filter (fun r => r.sensor_id == sid)).map toMeasurement)).isEmpty then []
      else clean_sensor_dataframe fit predict cfg sid
        (aggregate_10min_windows
          ((rows.filter (fun r => r.sensor_id == sid)).map toMeasurement)))

/-- Modelled from the spec's words (§4.3, "fits a (seasonal)
autoregressive-integrated model on the longest contiguous trailing run of
labeled data"): the maximal block of consecutively labeled entries ending
at the last labeled entry of the series.  Used only to compare the spec's
description of the training set with the code's. -/
def trailingLabeledRun (s : List (Option ℚ)) : List ℚ :=
  (((s.reverse.dropWhile (fun o => o.isNone)).takeWhile (fun o => o.isSome)).reverse).filterMap (fun o => o)

/-- The default configuration of `config.py` (`min 0.0`, `max 150.0`,
no quality bound, interpolation limit 6), forecasting disabled. -/
def cfgDefault : Config :=
  { min_value_mm := 0, max_value_mm := 150, min_quality := none,
    interpolation_limit := 6, arima_enabled := false, arima_min_train := 48,
    arima_max_order := 3, arima_seasonal := false, arima_m := 24 }

/-- Default configuration with forecasting enabled and a one-point
training minimum. -/
def cfgArima : Config :=
  { cfgDefault with arima_enabled := true, arima_min_train := 1 }

/-- A configuration whose physical range is inverted (`min > max`). -/
def cfgInverted : Config := { cfgDefault with min_value_mm := 1, max_value_mm := 0 }

/-- A configuration whose physical floor is strictly positive. -/
def cfgMin5 : Config := { cfgDefault with min_value_mm := 5 }

/-- An always-succeeding fit oracle with a trivial model. -/
def fitUnit : List ℚ → ModelSpec → Option Unit := fun _ _ => some ()

/-- A fit oracle that always raises (`ARIMA(...).fit()` failing). -/
def fitFail : List ℚ → ModelSpec → Option Unit := fun _ _ => none

/-- A fit oracle whose model is the training data itself. -/
def fitData : List ℚ → ModelSpec → Option (List ℚ) := fun d _ => some d

/-- A predict oracle that always raises. -/
def predictNone : Unit → Nat → Option ℚ := fun _ _ => none

/-- A predict oracle returning the constant `1`. -/
def predictOne : Unit → Nat → Option ℚ := fun _ _ => some 1

/-- A predict oracle returning the first training observation: its
forecasts reveal which data the model was fitted on. -/
def predictHead : List ℚ → Nat → Option ℚ := fun m _ => m.head?

/-- A series whose labeled data `[5, 1]` is not contiguous: the longest
contiguous trailing run of labeled data is `[1]` alone. -/
def exSplitSeries : List (Option ℚ) := [some 5, none, some 1, none]

/-- A two-point series with one labeled point and one trailing gap. -/
def exGapSeries : List (Option ℚ) := [some 1, none]

/-- The row `_clean_sensor_dataframe` materializes at position `i` of the
sorted frame. -/
def emittedRowAt {M : Type} (fit : List ℚ → ModelSpec → Option M)
    (predict : M → Nat → Option ℚ) (cfg : Config) (sensor_id : String)
    (ts : List Nat) (v0 quality : List (Option ℚ)) (i : Nat) : CleanRow :=
  let qc := qcApplied cfg v0 quality
  let s6 := cascadeApplied fit predict cfg ts qc.1
  { sensor_id := sensor_id, ts := ts.getD i 0,
    value_mm := clip ((atOpt s6.1 i).getD 0) cfg.min_value_mm cfg.max_value_mm,
    qc_flags := qc.2.getD i 0 ||| (if (atOpt s6.2 i).isSome then IMPUTED_FLAG else 0),
    imputation_method := atOpt s6.2 i,
    version := 1 }

/-! ### Theorems -/

theorem seriesMap_length {α : Type} (n : Nat) (f : Nat → α) :
    (seriesMap n f).length = n := by
  unfold seriesMap; rw [List.length_map, List.length_range]

theorem seriesMap_getD {α : Type} {n : Nat} (f : Nat → α) (d : α) {i : Nat} (h : i < n) :
    (seriesMap n f).getD i d = f i := by
  unfold seriesMap
  rw [List.getD_eq_getElem?_getD, List.getElem?_map, List.getElem?_range h]
  rfl

theorem getD_eq_default {α : Type} (l : List α) (d : α) {i : Nat} (h : l.length ≤ i) :
    l.getD i d = d := by
  rw [List.getD_eq_getElem?_getD, List.getElem?_eq_none h]
  rfl

theorem bucketOf_mod (t : Nat) : bucketOf t % 600 = 0 := by
  have h := Nat.div_add_mod t 600
  have hb : bucketOf t = 600 * (t / 600) := by unfold bucketOf; omega
  rw [hb, Nat.mul_mod_right]

theorem bucketOf_idem (t : Nat) : bucketOf (bucketOf t) = bucketOf t := by
  have h := bucketOf_mod t
  unfold bucketOf
  omega

theorem atOpt_eq_none_of_le {α : Type} {l : List (Option α)} {i : Nat}
    (h : l.length ≤ i) : atOpt l i = none :=
  getD_eq_default l none h

theorem lt_length_of_atOpt_some {α : Type} {l : List (Option α)} {i : Nat} {x : α}
    (h : atOpt l i = some x) : i < l.length := by
  by_contra hn
  rw [atOpt_eq_none_of_le (Nat.le_of_not_lt hn)] at h
  exact Option.noConfusion h

theorem seriesMap_getElem? {α : Type} {n i : Nat} (f : Nat → α) (h : i < n) :
    (seriesMap n f)[i]? = some (f i) := by
  unfold seriesMap
  rw [List.getElem?_map, List.getElem?_range h]
  rfl

theorem atOpt_seriesMap {α : Type} {n i : Nat} (f : Nat → Option α) (h : i < n) :
    atOpt (seriesMap n f) i = f i :=
  seriesMap_getD f none h

theorem atOpt_replicate {α : Type} (n i : Nat) :
    atOpt (List.replicate n (none : Option α)) i = none := by
  unfold atOpt
  rw [List.getD_eq_getElem?_getD, List.getElem?_replicate]
  split <;> rfl

theorem getD_map_seriesMap {α β : Type} {n i : Nat} (g : α → β) (f : Nat → α)
    (d : β) (h : i < n) : ((seriesMap n f).map g).getD i d = g (f i) := by
  rw [List.getD_eq_getElem?_getD, List.getElem?_map, seriesMap_getElem? f h]
  rfl

theorem atOpt_map_fst_seriesMap {β : Type} {n i : Nat}
    (pf : Nat → (Option β × Option String)) (h : i < n) :
    atOpt ((seriesMap n pf).map Prod.fst) i = (pf i).1 :=
  getD_map_seriesMap Prod.fst pf none h

theorem atOpt_map_snd_seriesMap {β : Type} {n i : Nat}
    (pf : Nat → (Option β × Option String)) (h : i < n) :
    atOpt ((seriesMap n pf).map Prod.snd) i = (pf i).2 :=
  getD_map_seriesMap Prod.snd pf none h

theorem applyNullMask_length (v : List (Option ℚ)) (m : List Bool) :
    (applyNullMask v m).length = v.length :=
  seriesMap_length v.length _

/-- The forecast stage either returns its input unchanged (a guard or the
caught fit failure) or runs the gap loop pointwise. -/
theorem arima_fill_cases {M : Type} (fit : List ℚ → ModelSpec → Option M)
    (predict : M → Nat → Option ℚ) (cfg : Config) (s : List (Option ℚ)) :
    arima_forecast_fill fit predict cfg s = (s, List.replicate s.length none) ∨
    ∃ m lp, fit (arimaTrainData s) (specOf cfg (arimaTrainData s).length) = some m ∧
      lastValidPos s = some lp ∧
      ¬ (s.filter (fun o => o.isSome)).length < cfg.arima_min_train ∧
      ¬ s.all (fun o => o.isSome) = true ∧
      arima_forecast_fill fit predict cfg s =
        ((seriesMap s.length (arimaPoint predict m cfg lp s)).map Prod.fst,
         (seriesMap s.length (arimaPoint predict m cfg lp s)).map Prod.snd) := by
  unfold arima_forecast_fill
  by_cases h1 : (s.filter (fun o => o.isSome)).length < cfg.arima_min_train
  · left; simp [h1]
  · by_cases h2 : s.all (fun o => o.isSome) = true
    · left; simp [h1, h2]
    · rcases hf : fit (arimaTrainData s) (specOf cfg (arimaTrainData s).length) with _ | m
      · left; simp [h1, h2, hf]
      · rcases hlp : lastValidPos s with _ | lp
        · left; simp [h1, h2, hf, hlp]
        · right
          exact ⟨m, lp, rfl, rfl, h1, h2, by simp [h1, h2, hf, hlp]⟩

theorem arima_fill_fst_length {M : Type} (fit : List ℚ → ModelSpec → Option M)
    (predict : M → Nat → Option ℚ) (cfg : Config) (s : List (Option ℚ)) :
    (arima_forecast_fill fit predict cfg s).1.length = s.length := by
  rcases arima_fill_cases fit predict cfg s with h | ⟨m, lp, _, _, _, _, h⟩
  · rw [h]
  · rw [h]; simp [List.length_map, seriesMap_length]

theorem arima_fill_snd_length {M : Type} (fit : List ℚ → ModelSpec → Option M)
    (predict : M → Nat → Option ℚ) (cfg : Config) (s : List (Option ℚ)) :
    (arima_forecast_fill fit predict cfg s).2.length = s.length := by
  rcases arima_fill_cases fit predict cfg s with h | ⟨m, lp, _, _, _, _, h⟩
  · rw [h]; simp [List.length_replicate]
  · rw [h]; simp [List.length_map, seriesMap_length]

theorem arimaApplied_fst_length {M : Type} (fit : List ℚ → ModelSpec → Option M)
    (predict : M → Nat → Option ℚ) (cfg : Config) (v : List (Option ℚ)) :
    (arimaApplied fit predict cfg v).1.length = v.length := by
  unfold arimaApplied
  split
  · exact arima_fill_fst_length fit predict cfg v
  · rfl

theorem arimaApplied_snd_length {M : Type} (fit : List ℚ → ModelSpec → Option M)
    (predict : M → Nat → Option ℚ) (cfg : Config) (v : List (Option ℚ)) :
    (arimaApplied fit predict cfg v).2.length = v.length := by
  unfold arimaApplied
  split
  · exact seriesMap_length v.length _
  · exact List.length_replicate v.length none

theorem stageFill_fst_length (fill : Nat → Option ℚ) (tag : String)
    (p : List (Option ℚ) × List (Option String)) :
    (stageFill fill tag p).1.length = p.1.length :=
  seriesMap_length p.1.length _

theorem stageFill_snd_length (fill : Nat → Option ℚ) (tag : String)
    (p : List (Option ℚ) × List (Option String)) :
    (stageFill fill tag p).2.length = p.1.length :=
  seriesMap_length p.1.length _

/-- The forecast stage leaves every already-labeled point untouched. -/
theorem arima_fill_preserves {M : Type} (fit : List ℚ → ModelSpec → Option M)
    (predict : M → Nat → Option ℚ) (cfg : Config) {s : List (Option ℚ)}
    {i : Nat} {x : ℚ} (h : atOpt s i = some x) :
    atOpt (arima_forecast_fill fit predict cfg s).1 i = some x := by
  have hi : i < s.length := lt_length_of_atOpt_some h
  rcases arima_fill_cases fit predict cfg s with hc | ⟨m, lp, _, _, _, _, hc⟩
  · rw [hc]; exact h
  · rw [hc]
    rw [atOpt_map_fst_seriesMap _ hi]
    simp [arimaPoint, h]

/-- The forecast stage emits a label only at a previously-null point, and
that label is `"arima_forecast"`. -/
theorem arima_fill_label {M : Type} (fit : List ℚ → ModelSpec → Option M)
    (predict : M → Nat → Option ℚ) (cfg : Config) {s : List (Option ℚ)}
    {i : Nat} {t : String}
    (h : atOpt (arima_forecast_fill fit predict cfg s).2 i = some t) :
    atOpt s i = none ∧ t = "arima_forecast" := by
  by_cases hi : i < s.length
  · rcases arima_fill_cases fit predict cfg s with hc | ⟨m, lp, _, _, _, _, hc⟩
    · rw [hc, atOpt_replicate] at h
      exact Option.noConfusion h
    · rw [hc, atOpt_map_snd_seriesMap _ hi] at h
      unfold arimaPoint at h
      rcases hcur : atOpt s i with _ | y
      · rw [hcur] at h
        simp only [Option.isSome_none, Bool.false_eq_true, if_false] at h
        refine ⟨rfl, ?_⟩
        by_cases h1 : i ≤ lp
        · rw [if_pos h1] at h; exact Option.noConfusion h
        · rw [if_neg h1] at h
          by_cases h2 : 100 < i - lp
          · rw [if_pos h2] at h; exact Option.noConfusion h
          · rw [if_neg h2] at h
            rcases hp : predict m (i - lp) with _ | w
            · rw [hp] at h; exact Option.noConfusion h
            · rw [hp] at h
              exact (Option.some.inj h).symm
      · rw [hcur] at h
        simp at h
  · have hlen : (arima_forecast_fill fit predict cfg s).2.length ≤ i := by
      rw [arima_fill_snd_length]; omega
    rw [atOpt_eq_none_of_le hlen] at h
    exact Option.noConfusion h

/-- The pipeline's forecast step leaves labeled points untouched. -/
theorem arimaApplied_preserves {M : Type} (fit : List ℚ → ModelSpec → Option M)
    (predict : M → Nat → Option ℚ) (cfg : Config) {v : List (Option ℚ)}
    {i : Nat} {x : ℚ} (h : atOpt v i = some x) :
    atOpt (arimaApplied fit predict cfg v).1 i = some x := by
  unfold arimaApplied
  split
  · exact arima_fill_preserves fit predict cfg h
  · exact h

/-- The pipeline's forecast step labels only previously-null points, with
the forecast tag. -/
theorem arimaApplied_label {M : Type} (fit : List ℚ → ModelSpec → Option M)
    (predict : M → Nat → Option ℚ) (cfg : Config) {v : List (Option ℚ)}
    {i : Nat} {t : String}
    (h : atOpt (arimaApplied fit predict cfg v).2 i = some t) :
    atOpt v i = none ∧ t = "arima_forecast" := by
  revert h
  unfold arimaApplied
  split
  · by_cases hi : i < v.length
    · rw [atOpt_seriesMap _ hi]
      split
      · rename_i hcond
        intro h
        have hnone : (atOpt v i).isNone = true := by
          rcases (Bool.and_eq_true _ _).mp hcond with ⟨h1, _⟩
          exact h1
        refine ⟨Option.isNone_iff_eq_none.mp hnone, ?_⟩
        rcases arima_fill_label fit predict cfg h with ⟨_, ht⟩
        exact ht
      · intro h; exact Option.noConfusion h
    · rw [atOpt_eq_none_of_le (by rw [seriesMap_length]; omega)]
      intro h; exact Option.noConfusion h
  · rw [atOpt_replicate]
    intro h; exact Option.noConfusion h

/-- A `stageFill` stage leaves every already-labeled point untouched. -/
theorem stageFill_preserves (fill : Nat → Option ℚ) (tag : String)
    {p : List (Option ℚ) × List (Option String)} {i : Nat} {x : ℚ}
    (h : atOpt p.1 i = some x) :
    atOpt (stageFill fill tag p).1 i = some x := by
  have hi : i < p.1.length := lt_length_of_atOpt_some h
  unfold stageFill
  rw [atOpt_seriesMap _ hi, h]
  simp

/-- A `stageFill` label is either inherited or freshly assigned at a
previously-null point, in which case it is the stage's own tag. -/
theorem stageFill_label (fill : Nat → Option ℚ) (tag : String)
    {p : List (Option ℚ) × List (Option String)} {i : Nat} {t : String}
    (h : atOpt (stageFill fill tag p).2 i = some t) :
    atOpt p.2 i = some t ∨ (atOpt p.1 i = none ∧ t = tag) := by
  by_cases hi : i < p.1.length
  · rw [stageFill, atOpt_seriesMap _ hi] at h
    revert h
    split
    · rename_i hcond
      intro h
      right
      rcases (Bool.and_eq_true _ _).mp hcond with ⟨h1, _⟩
      exact ⟨Option.isNone_iff_eq_none.mp h1, (Option.some.inj h).symm⟩
    · intro h; left; exact h
  · rw [stageFill, atOpt_eq_none_of_le (by rw [seriesMap_length]; omega)] at h
    exact Option.noConfusion h

/-- A `stageFill` stage never overwrites the label of a filled point. -/
theorem stageFill_persists (fill : Nat → Option ℚ) (tag : String)
    {p : List (Option ℚ) × List (Option String)} {i : Nat} {t : String} {x : ℚ}
    (hlab : atOpt p.2 i = some t) (hval : atOpt p.1 i = some x) :
    atOpt (stageFill fill tag p).2 i = some t := by
  have hi : i < p.1.length := lt_length_of_atOpt_some hval
  rw [stageFill, atOpt_seriesMap _ hi, hval]
  simp [hlab]

/-- Pointwise value of a `stageFill` stage at a null point with a defined
candidate. -/
theorem stageFill_fills (fill : Nat → Option ℚ) (tag : String)
    {p : List (Option ℚ) × List (Option String)} {i : Nat} {y : ℚ}
    (hi : i < p.1.length) (hnull : atOpt p.1 i = none) (hf : fill i = some y) :
    atOpt (stageFill fill tag p).1 i = some y ∧
    atOpt (stageFill fill tag p).2 i = some tag := by
  constructor
  · rw [stageFill, atOpt_seriesMap _ hi, hnull, hf]
    simp
  · rw [stageFill, atOpt_seriesMap _ hi, hnull, hf]
    simp

/-- Pointwise no-op of a `stageFill` stage at a null point with no
candidate. -/
theorem stageFill_skips (fill : Nat → Option ℚ) (tag : String)
    {p : List (Option ℚ) × List (Option String)} {i : Nat}
    (hi : i < p.1.length) (hnull : atOpt p.1 i = none) (hf : fill i = none) :
    atOpt (stageFill fill tag p).1 i = none ∧
    atOpt (stageFill fill tag p).2 i = atOpt p.2 i := by
  constructor
  · rw [stageFill, atOpt_seriesMap _ hi, hnull, hf]
    simp
  · rw [stageFill, atOpt_seriesMap _ hi, hnull, hf]
    simp

theorem atOpt_eq_getElem {α : Type} {l : List (Option α)} {i : Nat}
    (hi : i < l.length) : atOpt l i = l[i] := by
  unfold atOpt
  rw [List.getD_eq_getElem?_getD, List.getElem?_eq_getElem hi]
  rfl

theorem getD_map_of_lt {α β : Type} (f : α → β) {l : List α} {i : Nat} (d : β)
    (hi : i < l.length) : (l.map f).getD i d = f l[i] := by
  rw [List.getD_eq_getElem?_getD, List.getElem?_map, List.getElem?_eq_getElem hi]
  rfl

theorem outlierMask_getD_some {cfg : Config} {v : List (Option ℚ)} {i : Nat} {x : ℚ}
    (h : atOpt v i = some x) :
    (outlierMask cfg v).getD i false =
      (decide (x < cfg.min_value_mm) || decide (cfg.max_value_mm < x)) := by
  have hi : i < v.length := lt_length_of_atOpt_some h
  rw [atOpt_eq_getElem hi] at h
  rw [outlierMask, getD_map_of_lt _ false hi, h]

theorem outlierMask_getD_none {cfg : Config} {v : List (Option ℚ)} {i : Nat}
    (h : atOpt v i = none) :
    (outlierMask cfg v).getD i false = false := by
  by_cases hi : i < v.length
  · rw [atOpt_eq_getElem hi] at h
    rw [outlierMask, getD_map_of_lt _ false hi, h]
  · rw [outlierMask, getD_eq_default]
    rw [List.length_map]
    omega

theorem poorMask_getD_no_mq {cfg : Config} {quality : List (Option ℚ)} {i : Nat}
    (h : cfg.min_quality = none) :
    (poorMask cfg quality).getD i false = false := by
  rw [poorMask, h]
  by_cases hi : i < quality.length
  · rw [List.getD_eq_getElem?_getD, List.getElem?_replicate]
    split <;> rfl
  · rw [getD_eq_default]
    rw [List.length_replicate]
    omega

theorem poorMask_getD_some {cfg : Config} {quality : List (Option ℚ)} {i : Nat}
    {mq q : ℚ} (hmq : cfg.min_quality = some mq) (hq : atOpt quality i = some q) :
    (poorMask cfg quality).getD i false = decide (q < mq) := by
  have hi : i < quality.length := lt_length_of_atOpt_some hq
  rw [atOpt_eq_getElem hi] at hq
  rw [poorMask, hmq, getD_map_of_lt _ false hi, hq]

theorem poorMask_getD_none {cfg : Config} {quality : List (Option ℚ)} {i : Nat}
    (hq : atOpt quality i = none) :
    (poorMask cfg quality).getD i false = false := by
  rcases hmq : cfg.min_quality with _ | mq
  · exact poorMask_getD_no_mq hmq
  · by_cases hi : i < quality.length
    · rw [atOpt_eq_getElem hi] at hq
      rw [poorMask, hmq, getD_map_of_lt _ false hi, hq]
    · rw [poorMask, hmq, getD_eq_default]
      rw [List.length_map]
      omega

theorem applyNullMask_atOpt {v : List (Option ℚ)} {m : List Bool} {i : Nat}
    (hi : i < v.length) :
    atOpt (applyNullMask v m) i = if m.getD i false then none else atOpt v i :=
  atOpt_seriesMap _ hi

theorem qcApplied_fst_length (cfg : Config) (v quality : List (Option ℚ)) :
    (qcApplied cfg v quality).1.length = v.length := by
  unfold qcApplied
  rw [applyNullMask_length, applyNullMask_length]

theorem qcApplied_fst_atOpt (cfg : Config) (v quality : List (Option ℚ))
    {i : Nat} (hi : i < v.length) :
    atOpt (qcApplied cfg v quality).1 i =
      if (poorMask cfg quality).getD i false then none
      else if (outlierMask cfg v).getD i false then none
      else atOpt v i := by
  unfold qcApplied
  rw [applyNullMask_atOpt (by rw [applyNullMask_length]; exact hi),
      applyNullMask_atOpt hi]

theorem qcApplied_snd_getD (cfg : Config) (v quality : List (Option ℚ))
    {i : Nat} (hi : i < v.length) :
    (qcApplied cfg v quality).2.getD i 0 =
      ((if (outlierMask cfg v).getD i false then OUTLIER_FLAG else 0) |||
       (if (poorMask cfg quality).getD i false then POOR_QUALITY_FLAG else 0)) :=
  seriesMap_getD _ 0 hi

theorem interpApplied_fst_length (cfg : Config) (ts : List Nat)
    (p : List (Option ℚ) × List (Option String)) :
    (interpApplied cfg ts p).1.length = p.1.length :=
  stageFill_fst_length _ _ _

theorem interpApplied_snd_length (cfg : Config) (ts : List Nat)
    (p : List (Option ℚ) × List (Option String)) :
    (interpApplied cfg ts p).2.length = p.1.length :=
  stageFill_snd_length _ _ _

theorem hourApplied_fst_length (ts : List Nat)
    (p : List (Option ℚ) × List (Option String)) :
    (hourApplied ts p).1.length = p.1.length :=
  stageFill_fst_length _ _ _

theorem hourApplied_snd_length (ts : List Nat)
    (p : List (Option ℚ) × List (Option String)) :
    (hourApplied ts p).2.length = p.1.length :=
  stageFill_snd_length _ _ _

theorem fallbackApplied_fst_length (p : List (Option ℚ) × List (Option String)) :
    (fallbackApplied p).1.length = p.1.length :=
  stageFill_fst_length _ _ _

theorem fallbackApplied_snd_length (p : List (Option ℚ) × List (Option String)) :
    (fallbackApplied p).2.length = p.1.length :=
  stageFill_snd_length _ _ _

theorem cascadeApplied_fst_length {M : Type} (fit : List ℚ → ModelSpec → Option M)
    (predict : M → Nat → Option ℚ) (cfg : Config) (ts : List Nat)
    (v : List (Option ℚ)) :
    (cascadeApplied fit predict cfg ts v).1.length = v.length := by
  unfold cascadeApplied
  rw [fallbackApplied_fst_length, hourApplied_fst_length, interpApplied_fst_length,
      arimaApplied_fst_length]

theorem cascadeApplied_snd_length {M : Type} (fit : List ℚ → ModelSpec → Option M)
    (predict : M → Nat → Option ℚ) (cfg : Config) (ts : List Nat)
    (v : List (Option ℚ)) :
    (cascadeApplied fit predict cfg ts v).2.length = v.length := by
  unfold cascadeApplied
  rw [fallbackApplied_snd_length, hourApplied_fst_length, interpApplied_fst_length,
      arimaApplied_fst_length]

/-- After the zero fallback no point of the working series is null. -/
theorem fallbackApplied_total (p : List (Option ℚ) × List (Option String))
    {i : Nat} (hi : i < p.1.length) :
    (atOpt (fallbackApplied p).1 i).isSome = true := by
  rw [fallbackApplied, stageFill, atOpt_seriesMap _ hi]
  rcases h : atOpt p.1 i with _ | y
  · simp [h]
  · simp [h]

theorem cascadeApplied_total {M : Type} (fit : List ℚ → ModelSpec → Option M)
    (predict : M → Nat → Option ℚ) (cfg : Config) (ts : List Nat)
    (v : List (Option ℚ)) {i : Nat} (hi : i < v.length) :
    (atOpt (cascadeApplied fit predict cfg ts v).1 i).isSome = true := by
  unfold cascadeApplied
  apply fallbackApplied_total
  rw [hourApplied_fst_length, interpApplied_fst_length, arimaApplied_fst_length]
  exact hi

theorem filterMap_eq_map_of_forall {α β : Type} (l : List α) (F : α → Option β)
    (G : α → β) (h : ∀ a ∈ l, F a = some (G a)) : l.filterMap F = l.map G := by
  induction l with
  | nil => rfl
  | cons a l ih =>
    rw [List.filterMap_cons, h a (List.mem_cons_self a l), List.map_cons,
        ih (fun b hb => h b (List.mem_cons_of_mem a hb))]

/-- In range, the candidate row always exists and is `emittedRowAt`. -/
theorem cleanRowAt_eq_some {M : Type} (fit : List ℚ → ModelSpec → Option M)
    (predict : M → Nat → Option ℚ) (cfg : Config) (sensor_id : String)
    (ts : List Nat) (v0 quality : List (Option ℚ)) {i : Nat} (hi : i < v0.length) :
    cleanRowAt fit predict cfg sensor_id ts v0 quality i =
      some (emittedRowAt fit predict cfg sensor_id ts v0 quality i) := by
  have hqlen : (qcApplied cfg v0 quality).1.length = v0.length :=
    qcApplied_fst_length cfg v0 quality
  have hs6len : i < (cascadeApplied fit predict cfg ts (qcApplied cfg v0 quality).1).1.length := by
    rw [cascadeApplied_fst_length, hqlen]
    exact hi
  have htot : (atOpt (cascadeApplied fit predict cfg ts (qcApplied cfg v0 quality).1).1 i).isSome = true := by
    apply cascadeApplied_total
    rw [hqlen]
    exact hi
  rcases hy : atOpt (cascadeApplied fit predict cfg ts (qcApplied cfg v0 quality).1).1 i with _ | y
  · rw [hy] at htot
    exact Bool.noConfusion htot
  · have hmap : atOpt ((cascadeApplied fit predict cfg ts (qcApplied cfg v0 quality).1).1.map
        (fun o => o.map (fun x => clip x cfg.min_value_mm cfg.max_value_mm))) i =
        some (clip y cfg.min_value_mm cfg.max_value_mm) := by
      rw [atOpt, getD_map_of_lt _ none hs6len, ← atOpt_eq_getElem hs6len, hy]
      rfl
    simp only [cleanRowAt, emittedRowAt, hmap, Option.map_some]
    rw [seriesMap_getD _ 0 hi, hy]
    rfl

/-- Every input point is emitted (the post-fallback null filter never
drops a row), as the explicit row given by `emittedRowAt`. -/
theorem clean_sensor_eq_map {M : Type} (fit : List ℚ → ModelSpec → Option M)
    (predict : M → Nat → Option ℚ) (cfg : Config) (sensor_id : String)
    (rows : List Measurement) :
    clean_sensor_dataframe fit predict cfg sensor_id rows =
      (List.range ((sortByTs rows).map (fun r => r.value_mm)).length).map
        (emittedRowAt fit predict cfg sensor_id
          ((sortByTs rows).map (fun r => r.ts))
          ((sortByTs rows).map (fun r => r.value_mm))
          ((sortByTs rows).map (fun r => r.quality))) := by
  unfold clean_sensor_dataframe
  apply filterMap_eq_map_of_forall
  intro i hmem
  exact cleanRowAt_eq_some fit predict cfg sensor_id _ _ _ (List.mem_range.mp hmem)

theorem mem_insertByTs {r a : Measurement} {l : List Measurement} :
    a ∈ insertByTs r l ↔ a = r ∨ a ∈ l := by
  induction l with
  | nil => simp [insertByTs]
  | cons x xs ih =>
    unfold insertByTs
    split
    · simp
    · simp only [List.mem_cons, ih]
      tauto

theorem mem_sortByTs {a : Measurement} {rows : List Measurement} :
    a ∈ sortByTs rows ↔ a ∈ rows := by
  induction rows with
  | nil => simp [sortByTs]
  | cons x xs ih =>
    show a ∈ insertByTs x (sortByTs xs) ↔ _
    rw [mem_insertByTs, ih]
    simp

theorem clip_low {y lo hi : ℚ} (h : lo ≤ hi) : lo ≤ clip y lo hi :=
  le_min (le_max_right y lo) h

theorem clip_high (y lo hi : ℚ) : clip y lo hi ≤ hi :=
  min_le_right _ _

theorem clip_of_mem {x lo hi : ℚ} (hlo : lo ≤ x) (hhi : x ≤ hi) :
    clip x lo hi = x := by
  unfold clip
  rw [max_eq_left hlo, min_eq_left hhi]

/-- The pre-imputation QC bits never include the `IMPUTED` bit, and
adding it makes the `IMPUTED` test succeed. -/
theorem base_flag_bits (ob pb : Bool) :
    (((if ob then OUTLIER_FLAG else 0) ||| (if pb then POOR_QUALITY_FLAG else 0))
        &&& IMPUTED_FLAG = 0) ∧
    ((((if ob then OUTLIER_FLAG else 0) ||| (if pb then POOR_QUALITY_FLAG else 0))
        ||| IMPUTED_FLAG) &&& IMPUTED_FLAG ≠ 0) := by
  cases ob <;> cases pb <;> exact ⟨by decide, by decide⟩

/-- C4: each cascade stage (forecast, time interpolation, hourly median,
fallback) assigns a value and a label only to points still null when that
stage runs, never alters an already-filled point, and never overwrites an
existing label of a filled point; consequently every point carries at most
one imputation label — that of the first stage in cascade order that
fills it. -/
theorem cascade_stage_discipline {M : Type}
    (fit : List ℚ → ModelSpec → Option M) (predict : M → Nat → Option ℚ)
    (cfg : Config) (ts : List Nat) (v : List (Option ℚ))
    (lab : List (Option String)) (i : Nat) :
    (∀ x : ℚ, atOpt v i = some x →
       atOpt (arimaApplied fit predict cfg v).1 i = some x ∧
       atOpt (interpApplied cfg ts (v, lab)).1 i = some x ∧
       atOpt (hourApplied ts (v, lab)).1 i = some x ∧
       atOpt (fallbackApplied (v, lab)).1 i = some x) ∧
    (∀ t : String, atOpt (arimaApplied fit predict cfg v).2 i = some t →
       atOpt v i = none ∧ t = "arima_forecast") ∧
    (∀ t : String, atOpt (interpApplied cfg ts (v, lab)).2 i = some t →
       atOpt lab i = some t ∨ (atOpt v i = none ∧ t = "time_interp")) ∧
    (∀ t : String, atOpt (hourApplied ts (v, lab)).2 i = some t →
       atOpt lab i = some t ∨ (atOpt v i = none ∧ t = "hour_median")) ∧
    (∀ t : String, atOpt (fallbackApplied (v, lab)).2 i = some t →
       atOpt lab i = some t ∨ (atOpt v i = none ∧ t = "zero_fallback")) ∧
    (∀ (t : String) (x : ℚ), atOpt lab i = some t → atOpt v i = some x →
       atOpt (interpApplied cfg ts (v, lab)).2 i = some t ∧
       atOpt (hourApplied ts (v, lab)).2 i = some t ∧
       atOpt (fallbackApplied (v, lab)).2 i = some t) := by
  refine ⟨?_, ?_, ?_, ?_, ?_, ?_⟩
  · intro x hx
    exact ⟨arimaApplied_preserves fit predict cfg hx,
           stageFill_preserves _ _ hx, stageFill_preserves _ _ hx,
           stageFill_preserves _ _ hx⟩
  · intro t ht
    exact arimaApplied_label fit predict cfg ht
  · intro t ht
    rcases stageFill_label _ _ ht with h | ⟨h1, h2⟩
    · exact Or.inl h
    · exact Or.inr ⟨h1, h2⟩
  · intro t ht
    rcases stageFill_label _ _ ht with h | ⟨h1, h2⟩
    · exact Or.inl h
    · exact Or.inr ⟨h1, h2⟩
  · intro t ht
    rcases stageFill_label _ _ ht with h | ⟨h1, h2⟩
    · exact Or.inl h
    · exact Or.inr ⟨h1, h2⟩
  · intro t x ht hx
    exact ⟨stageFill_persists _ _ ht hx, stageFill_persists _ _ ht hx,
           stageFill_persists _ _ ht hx⟩

/-- Witness for C4 at a concrete series: position 0 holds the measured
value `2`, which every stage preserves, and position 1 of the fallback
output carries the fallback label only because it was null. -/
theorem cascade_stage_discipline_witness :
    atOpt [some (2 : ℚ), none] 0 = some 2 ∧
    atOpt (fallbackApplied ([some (2 : ℚ), none], [none, none])).1 0 = some 2 ∧
    (atOpt (fallbackApplied ([some (2 : ℚ), none], [none, none])).2 1 =
        some "zero_fallback" →
      atOpt [none, none] 1 = (some "zero_fallback" : Option String) ∨
        (atOpt [some (2 : ℚ), none] 1 = none ∧
          "zero_fallback" = "zero_fallback")) := by
  refine ⟨by decide, ?_, ?_⟩
  · exact (((cascade_stage_discipline fitUnit predictNone cfgDefault [0, 600]
      [some 2, none] [none, none] 0).1) 2 (by decide)).2.2.2
  · exact ((cascade_stage_discipline fitUnit predictNone cfgDefault [0, 600]
      [some 2, none] [none, none] 1).2.2.2.2.1) "zero_fallback"

/-- C5: QC flagging — an in-range check failure (`value < min` or
`value > max`) nulls the value and sets the `OUTLIER` bit; when
`min_quality` is configured, a quality strictly below it nulls the value
and sets the `POOR_QUALITY` bit; a point with unknown (NaN) quality is
treated as passing the quality check: no `POOR_QUALITY` bit and no
quality-nulling. -/
theorem qc_flagging (cfg : Config) (v quality : List (Option ℚ)) (i : Nat) :
    (∀ x : ℚ, atOpt v i = some x →
       (x < cfg.min_value_mm ∨ cfg.max_value_mm < x) →
       atOpt (qcApplied cfg v quality).1 i = none ∧
       (qcApplied cfg v quality).2.getD i 0 &&& OUTLIER_FLAG ≠ 0) ∧
    (∀ x : ℚ, atOpt v i = some x →
       ¬(x < cfg.min_value_mm ∨ cfg.max_value_mm < x) →
       (qcApplied cfg v quality).2.getD i 0 &&& OUTLIER_FLAG = 0) ∧
    (∀ mq q : ℚ, cfg.min_quality = some mq → atOpt quality i = some q →
       q < mq → i < v.length →
       atOpt (qcApplied cfg v quality).1 i = none ∧
       (qcApplied cfg v quality).2.getD i 0 &&& POOR_QUALITY_FLAG ≠ 0) ∧
    (atOpt quality i = none → i < v.length →
       (qcApplied cfg v quality).2.getD i 0 &&& POOR_QUALITY_FLAG = 0 ∧
       atOpt (qcApplied cfg v quality).1 i =
         atOpt (applyNullMask v (outlierMask cfg v)) i) := by
  refine ⟨?_, ?_, ?_, ?_⟩
  · intro x hx hout
    have hi : i < v.length := lt_length_of_atOpt_some hx
    have hob : (outlierMask cfg v).getD i false = true := by
      rw [outlierMask_getD_some hx]
      rcases hout with h | h
      · simp [h]
      · simp [h]
    constructor
    · rw [qcApplied_fst_atOpt cfg v quality hi, hob]
      split
      · rfl
      · rfl
    · rw [qcApplied_snd_getD cfg v quality hi, hob]
      rcases hpb : (poorMask cfg quality).getD i false with _ | _
      · decide
      · decide
  · intro x hx hout
    have hi : i < v.length := lt_length_of_atOpt_some hx
    have hob : (outlierMask cfg v).getD i false = false := by
      rw [outlierMask_getD_some hx]
      push_neg at hout
      simp [not_lt.mpr hout.1, not_lt.mpr hout.2]
    rw [qcApplied_snd_getD cfg v quality hi, hob]
    rcases hpb : (poorMask cfg quality).getD i false with _ | _
    · decide
    · decide
  · intro mq q hmq hq hlt hi
    have hpb : (poorMask cfg quality).getD i false = true := by
      rw [poorMask_getD_some hmq hq]
      simp [hlt]
    constructor
    · rw [qcApplied_fst_atOpt cfg v quality hi, hpb]
      rfl
    · rw [qcApplied_snd_getD cfg v quality hi, hpb]
      rcases hob : (outlierMask cfg v).getD i false with _ | _
      · decide
      · decide
  · intro hq hi
    have hpb : (poorMask cfg quality).getD i false = false := poorMask_getD_none hq
    constructor
    · rw [qcApplied_snd_getD cfg v quality hi, hpb]
      rcases hob : (outlierMask cfg v).getD i false with _ | _
      · decide
      · decide
    · rw [qcApplied_fst_atOpt cfg v quality hi, hpb,
          applyNullMask_atOpt hi]
      rfl

/-- Witness for C5: at the default bounds an input of `200` is nulled with
the `OUTLIER` bit set, and a point with unknown quality keeps its value
and gets no `POOR_QUALITY` bit. -/
theorem qc_flagging_witness :
    (atOpt (qcApplied cfgDefault [some 200] [none]).1 0 = none ∧
      (qcApplied cfgDefault [some 200] [none]).2.getD 0 0 &&& OUTLIER_FLAG ≠ 0) ∧
    ((qcApplied cfgDefault [some 200] [none]).2.getD 0 0 &&& POOR_QUALITY_FLAG = 0 ∧
      atOpt (qcApplied cfgDefault [some 200] [none]).1 0 =
        atOpt (applyNullMask [some 200] (outlierMask cfgDefault [some 200])) 0) := by
  constructor
  · exact ((qc_flagging cfgDefault [some 200] [none] 0).1) 200 (by decide)
      (by right; show (150 : ℚ) < 200; norm_num)
  · exact ((qc_flagging cfgDefault [some 200] [none] 0).2.2.2) (by decide) (by decide)

/-- C10: an input point whose value is numeric, within
`[min_value_mm, max_value_mm]`, and passing the quality check is emitted
unchanged: same value, `qc_flags = 0`, no imputation label.  Stated at
position `i` of the timestamp-sorted frame. -/
theorem valid_value_preserved {M : Type} (fit : List ℚ → ModelSpec → Option M)
    (predict : M → Nat → Option ℚ) (cfg : Config) (sid : String)
    (rows : List Measurement) (i : Nat) (r : Measurement) (x : ℚ)
    (hr : (sortByTs rows)[i]? = some r)
    (hx : r.value_mm = some x)
    (hlo : cfg.min_value_mm ≤ x) (hhi : x ≤ cfg.max_value_mm)
    (hq : cfg.min_quality = none ∨ r.quality = none ∨
          (∃ mq q, cfg.min_quality = some mq ∧ r.quality = some q ∧ ¬ q < mq)) :
    (clean_sensor_dataframe fit predict cfg sid rows)[i]? =
      some { sensor_id := sid, ts := r.ts, value_mm := x, qc_flags := 0,
             imputation_method := none, version := 1 } := by
  obtain ⟨hi, hel⟩ := List.getElem?_eq_some_iff.mp hr
  have hv0len : ((sortByTs rows).map (fun r => r.value_mm)).length = (sortByTs rows).length :=
    List.length_map _ _
  have hiv : i < ((sortByTs rows).map (fun r => r.value_mm)).length := by
    rw [hv0len]; exact hi
  have hv0 : atOpt ((sortByTs rows).map (fun r => r.value_mm)) i = some x := by
    rw [atOpt, getD_map_of_lt _ none hi, hel, hx]
  have hqual : atOpt ((sortByTs rows).map (fun r => r.quality)) i = r.quality := by
    rw [atOpt, getD_map_of_lt _ none hi, hel]
  have hts : ((sortByTs rows).map (fun r => r.ts)).getD i 0 = r.ts := by
    rw [getD_map_of_lt _ 0 hi, hel]
  have hob : (outlierMask cfg ((sortByTs rows).map (fun r => r.value_mm))).getD i false = false := by
    rw [outlierMask_getD_some hv0]
    simp [not_lt.mpr hlo, not_lt.mpr hhi]
  have hpb : (poorMask cfg ((sortByTs rows).map (fun r => r.quality))).getD i false = false := by
    rcases hq with h | h | ⟨mq, q, hmq, hrq, hqlt⟩
    · exact poorMask_getD_no_mq h
    · exact poorMask_getD_none (by rw [hqual, h])
    · rw [poorMask_getD_some hmq (by rw [hqual, hrq])]
      simp [hqlt]
  have hqc1 : atOpt (qcApplied cfg ((sortByTs rows).map (fun r => r.value_mm))
      ((sortByTs rows).map (fun r => r.quality))).1 i = some x := by
    rw [qcApplied_fst_atOpt _ _ _ hiv, hpb, hob]
    exact hv0
  have h3 : atOpt (arimaApplied fit predict cfg (qcApplied cfg
      ((sortByTs rows).map (fun r => r.value_mm))
      ((sortByTs rows).map (fun r => r.quality))).1).1 i = some x :=
    arimaApplied_preserves fit predict cfg hqc1
  have h4 : atOpt (interpApplied cfg ((sortByTs rows).map (fun r => r.ts))
      (arimaApplied fit predict cfg (qcApplied cfg
        ((sortByTs rows).map (fun r => r.value_mm))
        ((sortByTs rows).map (fun r => r.quality))).1)).1 i = some x :=
    stageFill_preserves _ _ h3
  have h5 : atOpt (hourApplied ((sortByTs rows).map (fun r => r.ts))
      (interpApplied cfg ((sortByTs rows).map (fun r => r.ts))
        (arimaApplied fit predict cfg (qcApplied cfg
          ((sortByTs rows).map (fun r => r.value_mm))
          ((sortByTs rows).map (fun r => r.quality))).1))).1 i = some x :=
    stageFill_preserves _ _ h4
  have h6 : atOpt (cascadeApplied fit predict cfg ((sortByTs rows).map (fun r => r.ts))
      (qcApplied cfg ((sortByTs rows).map (fun r => r.value_mm))
        ((sortByTs rows).map (fun r => r.quality))).1).1 i = some x :=
    stageFill_preserves _ _ h5
  have l3 : atOpt (arimaApplied fit predict cfg (qcApplied cfg
      ((sortByTs rows).map (fun r => r.value_mm))
      ((sortByTs rows).map (fun r => r.quality))).1).2 i = none := by
    rcases hl : atOpt (arimaApplied fit predict cfg (qcApplied cfg
        ((sortByTs rows).map (fun r => r.value_mm))
        ((sortByTs rows).map (fun r => r.quality))).1).2 i with _ | t
    · exact hl
    · rcases arimaApplied_label fit predict cfg hl with ⟨hcontra, _⟩
      rw [hqc1] at hcontra
      exact Option.noConfusion hcontra
  have l4 : atOpt (interpApplied cfg ((sortByTs rows).map (fun r => r.ts))
      (arimaApplied fit predict cfg (qcApplied cfg
        ((sortByTs rows).map (fun r => r.value_mm))
        ((sortByTs rows).map (fun r => r.quality))).1)).2 i = none := by
    rcases hl : atOpt (interpApplied cfg ((sortByTs rows).map (fun r => r.ts))
        (arimaApplied fit predict cfg (qcApplied cfg
          ((sortByTs rows).map (fun r => r.value_mm))
          ((sortByTs rows).map (fun r => r.quality))).1)).2 i with _ | t
    · exact hl
    · rcases stageFill_label _ _ hl with hcontra | ⟨hcontra, _⟩
      · rw [l3] at hcontra
        exact Option.noConfusion hcontra
      · rw [h3] at hcontra
        exact Option.noConfusion hcontra
  have l5 : atOpt (hourApplied ((sortByTs rows).map (fun r => r.ts))
      (interpApplied cfg ((sortByTs rows).map (fun r => r.ts))
        (arimaApplied fit predict cfg (qcApplied cfg
          ((sortByTs rows).map (fun r => r.value_mm))
          ((sortByTs rows).map (fun r => r.quality))).1))).2 i = none := by
    rcases hl : atOpt (hourApplied ((sortByTs rows).map (fun r => r.ts))
        (interpApplied cfg ((sortByTs rows).map (fun r => r.ts))
          (arimaApplied fit predict cfg (qcApplied cfg
            ((sortByTs rows).map (fun r => r.value_mm))
            ((sortByTs rows).map (fun r => r.quality))).1))).2 i with _ | t
    · exact hl
    · rcases stageFill_label _ _ hl with hcontra | ⟨hcontra, _⟩
      · rw [l4] at hcontra
        exact Option.noConfusion hcontra
      · rw [h4] at hcontra
        exact Option.noConfusion hcontra
  have l6 : atOpt (cascadeApplied fit predict cfg ((sortByTs rows).map (fun r => r.ts))
      (qcApplied cfg ((sortByTs rows).map (fun r => r.value_mm))
        ((sortByTs rows).map (fun r => r.quality))).1).2 i = none := by
    rcases hl : atOpt (cascadeApplied fit predict cfg ((sortByTs rows).map (fun r => r.ts))
        (qcApplied cfg ((sortByTs rows).map (fun r => r.value_mm))
          ((sortByTs rows).map (fun r => r.quality))).1).2 i with _ | t
    · exact hl
    · rcases stageFill_label _ _ hl with hcontra | ⟨hcontra, _⟩
      · rw [l5] at hcontra
        exact Option.noConfusion hcontra
      · rw [h5] at hcontra
        exact Option.noConfusion hcontra
  rw [clean_sensor_eq_map, List.getElem?_map, List.getElem?_range hiv]
  simp only [Option.map_some']
  congr 1
  unfold emittedRowAt
  simp only [h6, l6, hts]
  rw [qcApplied_snd_getD _ _ _ hiv, hob, hpb]
  simp [clip_of_mem hlo hhi]

/-- Witness for C10: a single in-range measurement of `2` passes through
the whole pipeline untouched. -/
theorem valid_value_preserved_witness :
    (clean_sensor_dataframe fitUnit predictNone cfgDefault "s"
      [{ ts := 0, value_mm := some 2, quality := some 1 }])[0]? =
      some { sensor_id := "s", ts := 0, value_mm := 2, qc_flags := 0,
             imputation_method := none, version := 1 } := by
  exact valid_value_preserved fitUnit predictNone cfgDefault "s"
    [{ ts := 0, value_mm := some 2, quality := some 1 }] 0
    { ts := 0, value_mm := some 2, quality := some 1 } 2
    (by decide) (by decide) (by norm_num [cfgDefault]) (by norm_num [cfgDefault])
    (Or.inl (by decide))

/-- Sensor-level form of C3: in every row `_clean_sensor_dataframe` emits,
the `IMPUTED` bit is set exactly when the row carries an imputation label. -/
theorem clean_sensor_imputed_iff {M : Type} (fit : List ℚ → ModelSpec → Option M)
    (predict : M → Nat → Option ℚ) (cfg : Config) (sid : String)
    (rows : List Measurement) (row : CleanRow)
    (hrow : row ∈ clean_sensor_dataframe fit predict cfg sid rows) :
    (row.qc_flags &&& IMPUTED_FLAG ≠ 0 ↔ row.imputation_method ≠ none) := by
  rw [clean_sensor_eq_map] at hrow
  rcases List.mem_map.mp hrow with ⟨i, hmem, heq⟩
  have hiv : i < ((sortByTs rows).map (fun r => r.value_mm)).length :=
    List.mem_range.mp hmem
  subst heq
  show (emittedRowAt fit predict cfg sid _ _ _ i).qc_flags &&& IMPUTED_FLAG ≠ 0 ↔ _
  simp only [emittedRowAt]
  rw [qcApplied_snd_getD _ _ _ hiv]
  rcases hlab : atOpt (cascadeApplied fit predict cfg
      ((sortByTs rows).map (fun r => r.ts))
      (qcApplied cfg ((sortByTs rows).map (fun r => r.value_mm))
        ((sortByTs rows).map (fun r => r.quality))).1).2 i with _ | t
  · rw [hlab]
    simp only [Option.isSome_none, Bool.false_eq_true, if_false]
    rw [Nat.or_zero]
    constructor
    · intro h
      exact absurd (base_flag_bits _ _).1 h
    · intro h
      exact absurd rfl h
  · rw [hlab]
    simp only [Option.isSome_some, if_true]
    constructor
    · intro _
      exact fun h => Option.noConfusion h
    · intro _
      exact (base_flag_bits _ _).2

/-- C3: for every row emitted by `clean_measurements`, the `IMPUTED` bit
(value 2) is set in `qc_flags` if and only if `imputation_method` is
non-null. -/
theorem imputed_iff_labeled {M : Type} (fit : List ℚ → ModelSpec → Option M)
    (predict : M → Nat → Option ℚ) (cfg : Config)
    (rows : List RawMeasurement) (row : CleanRow)
    (hrow : row ∈ clean_measurements fit predict cfg rows) :
    (row.qc_flags &&& IMPUTED_FLAG ≠ 0 ↔ row.imputation_method ≠ none) := by
  rw [clean_measurements] at hrow
  split at hrow
  · exact absurd hrow (List.not_mem_nil row)
  · rcases List.mem_flatMap.mp hrow with ⟨sid, _, hmem⟩
    split at hmem
    · exact absurd hmem (List.not_mem_nil row)
    · exact clean_sensor_imputed_iff fit predict cfg sid _ row hmem

/-- Witness for C3: a lone out-of-range sample is nulled and refilled by
the zero fallback; its emitted row has both the label and the `IMPUTED`
bit. -/
theorem imputed_iff_labeled_witness :
    (({ sensor_id := "s", ts := 0, value_mm := 0, qc_flags := 3,
        imputation_method := some "zero_fallback", version := 1 } : CleanRow).qc_flags
        &&& IMPUTED_FLAG ≠ 0 ↔
      ({ sensor_id := "s", ts := 0, value_mm := 0, qc_flags := 3,
         imputation_method := some "zero_fallback", version := 1 } : CleanRow).imputation_method ≠ none) :=
  imputed_iff_labeled fitUnit predictNone cfgDefault
    [{ sensor_id := "s", ts := 0, value_mm := some 200, quality := none }]
    { sensor_id := "s", ts := 0, value_mm := 0, qc_flags := 3,
      imputation_method := some "zero_fallback", version := 1 }
    (by decide)

/-- Every emitted row comes from some sensor's `_clean_sensor_dataframe`
run under the same configuration. -/
theorem mem_clean_measurements {M : Type} {fit : List ℚ → ModelSpec → Option M}
    {predict : M → Nat → Option ℚ} {cfg : Config} {rows : List RawMeasurement}
    {row : CleanRow} (hrow : row ∈ clean_measurements fit predict cfg rows) :
    ∃ sid ms, row ∈ clean_sensor_dataframe fit predict cfg sid ms := by
  rw [clean_measurements] at hrow
  split at hrow
  · exact absurd hrow (List.not_mem_nil row)
  · rcases List.mem_flatMap.mp hrow with ⟨sid, _, hmem⟩
    split at hmem
    · exact absurd hmem (List.not_mem_nil row)
    · exact ⟨sid, _, hmem⟩

/-- Every value `_clean_sensor_dataframe` emits has passed the final
clamp. -/
theorem clean_sensor_value_clipped {M : Type} (fit : List ℚ → ModelSpec → Option M)
    (predict : M → Nat → Option ℚ) (cfg : Config) (sid : String)
    (rows : List Measurement) (row : CleanRow)
    (hrow : row ∈ clean_sensor_dataframe fit predict cfg sid rows) :
    ∃ y, row.value_mm = clip y cfg.min_value_mm cfg.max_value_mm := by
  rw [clean_sensor_eq_map] at hrow
  rcases List.mem_map.mp hrow with ⟨i, _, heq⟩
  subst heq
  exact ⟨_, rfl⟩

/-- C2 (amended: the configured range must be non-degenerate,
`min_value_mm ≤ max_value_mm`; the code's final clamp emits
`max_value_mm` — strictly below `min_value_mm` — when the bounds are
inverted): every row emitted by `clean_measurements` satisfies
`min_value_mm ≤ value_mm ≤ max_value_mm`. -/
theorem emitted_values_in_range {M : Type} (fit : List ℚ → ModelSpec → Option M)
    (predict : M → Nat → Option ℚ) (cfg : Config) (rows : List RawMeasurement)
    (row : CleanRow) (hminmax : cfg.min_value_mm ≤ cfg.max_value_mm)
    (hrow : row ∈ clean_measurements fit predict cfg rows) :
    cfg.min_value_mm ≤ row.value_mm ∧ row.value_mm ≤ cfg.max_value_mm := by
  rcases mem_clean_measurements hrow with ⟨sid, ms, hmem⟩
  rcases clean_sensor_value_clipped fit predict cfg sid ms row hmem with ⟨y, hy⟩
  rw [hy]
  exact ⟨clip_low hminmax, clip_high y _ _⟩

/-- Counterexample to C2 as stated (for *every* configuration): with the
inverted range `min_value_mm = 1 > 0 = max_value_mm`, a lone sample of `5`
is nulled as an outlier, refilled with `0`, and clamped to `0`, which is
strictly below `min_value_mm`. -/
theorem emitted_values_in_range_counterexample :
    (clean_measurements fitUnit predictNone cfgInverted
      [{ sensor_id := "s", ts := 0, value_mm := some 5, quality := none }]).map
        (fun row => row.value_mm) = [0] ∧
    cfgInverted.min_value_mm = 1 ∧ ¬ (cfgInverted.min_value_mm ≤ (0 : ℚ)) := by
  decide

/-- Witness for the amended C2: the zero-fallback row of a lone outlier
sample lies inside the default range `[0, 150]`. -/
theorem emitted_values_in_range_witness :
    cfgDefault.min_value_mm ≤
      ({ sensor_id := "s", ts := 0, value_mm := 0, qc_flags := 3,
         imputation_method := some "zero_fallback", version := 1 } : CleanRow).value_mm ∧
    ({ sensor_id := "s", ts := 0, value_mm := 0, qc_flags := 3,
       imputation_method := some "zero_fallback", version := 1 } : CleanRow).value_mm ≤
      cfgDefault.max_value_mm :=
  emitted_values_in_range fitUnit predictNone cfgDefault
    [{ sensor_id := "s", ts := 0, value_mm := some 200, quality := none }]
    { sensor_id := "s", ts := 0, value_mm := 0, qc_flags := 3,
      imputation_method := some "zero_fallback", version := 1 }
    (by decide) (by decide)

/-- With forecasting disabled the forecast step is the identity on the
series and contributes no labels. -/
theorem arimaApplied_disabled {M : Type} (fit : List ℚ → ModelSpec → Option M)
    (predict : M → Nat → Option ℚ) (cfg : Config) (v : List (Option ℚ))
    (hoff : cfg.arima_enabled = false) :
    arimaApplied fit predict cfg v = (v, List.replicate v.length none) := by
  unfold arimaApplied
  rw [hoff]
  rfl

/-- With forecasting disabled the whole cascade is independent of the
model oracles. -/
theorem cascadeApplied_disabled_indep {M M' : Type}
    (fit : List ℚ → ModelSpec → Option M) (predict : M → Nat → Option ℚ)
    (fit' : List ℚ → ModelSpec → Option M') (predict' : M' → Nat → Option ℚ)
    (cfg : Config) (hoff : cfg.arima_enabled = false) (ts : List Nat)
    (v : List (Option ℚ)) :
    cascadeApplied fit predict cfg ts v = cascadeApplied fit' predict' cfg ts v := by
  unfold cascadeApplied
  rw [arimaApplied_disabled fit predict cfg v hoff,
      arimaApplied_disabled fit' predict' cfg v hoff]

/-- Sensor-level oracle independence when forecasting is disabled. -/
theorem clean_sensor_disabled_indep {M M' : Type}
    (fit : List ℚ → ModelSpec → Option M) (predict : M → Nat → Option ℚ)
    (fit' : List ℚ → ModelSpec → Option M') (predict' : M' → Nat → Option ℚ)
    (cfg : Config) (sid : String) (rows : List Measurement)
    (hoff : cfg.arima_enabled = false) :
    clean_sensor_dataframe fit predict cfg sid rows =
      clean_sensor_dataframe fit' predict' cfg sid rows := by
  rw [clean_sensor_eq_map, clean_sensor_eq_map]
  apply List.map_congr_left
  intro i _
  unfold emittedRowAt
  simp only [cascadeApplied_disabled_indep fit predict fit' predict' cfg hoff]

/-- Sensor-level absence of the forecast label when forecasting is
disabled. -/
theorem clean_sensor_disabled_label {M : Type}
    (fit : List ℚ → ModelSpec → Option M) (predict : M → Nat → Option ℚ)
    (cfg : Config) (sid : String) (rows : List Measurement) (row : CleanRow)
    (hoff : cfg.arima_enabled = false)
    (hrow : row ∈ clean_sensor_dataframe fit predict cfg sid rows) :
    row.imputation_method ≠ some "arima_forecast" := by
  rw [clean_sensor_eq_map] at hrow
  rcases List.mem_map.mp hrow with ⟨i, _, heq⟩
  subst heq
  show (emittedRowAt fit predict cfg sid _ _ _ i).imputation_method ≠ _
  simp only [emittedRowAt]
  intro hc
  rcases stageFill_label _ _ hc with h5 | ⟨_, htag⟩
  · rcases stageFill_label _ _ h5 with h4 | ⟨_, htag⟩
    · rcases stageFill_label _ _ h4 with h3 | ⟨_, htag⟩
      · rw [arimaApplied_disabled fit predict cfg _ hoff, atOpt_replicate] at h3
        exact Option.noConfusion h3
      · exact absurd htag (by decide)
    · exact absurd htag (by decide)
  · exact absurd htag (by decide)

/-- C1: with `arima_enabled = false` (the spec's `forecast_enabled=false`)
no row emitted by `clean_measurements` ever carries the
`"arima_forecast"` label, for any input frame, and the whole computation
is independent of the forecast oracles — the stage is skipped entirely
while the remaining stages still run. -/
theorem forecast_disabled {M M' : Type} (fit : List ℚ → ModelSpec → Option M)
    (predict : M → Nat → Option ℚ) (fit' : List ℚ → ModelSpec → Option M')
    (predict' : M' → Nat → Option ℚ) (cfg : Config) (rows : List RawMeasurement)
    (hoff : cfg.arima_enabled = false) :
    (∀ row ∈ clean_measurements fit predict cfg rows,
       row.imputation_method ≠ some "arima_forecast") ∧
    clean_measurements fit predict cfg rows =
      clean_measurements fit' predict' cfg rows := by
  constructor
  · intro row hrow
    rcases mem_clean_measurements hrow with ⟨sid, ms, hmem⟩
    exact clean_sensor_disabled_label fit predict cfg sid ms row hoff hmem
  · rw [clean_measurements, clean_measurements]
    split
    · rfl
    · have hfun : (fun sid =>
          if (aggregate_10min_windows
                ((rows.filter (fun r => r.sensor_id == sid)).map toMeasurement)).isEmpty then
            ([] : List CleanRow)
          else clean_sensor_dataframe fit predict cfg sid
            (aggregate_10min_windows
              ((rows.filter (fun r => r.sensor_id == sid)).map toMeasurement))) =
          (fun sid =>
          if (aggregate_10min_windows
                ((rows.filter (fun r => r.sensor_id == sid)).map toMeasurement)).isEmpty then
            ([] : List CleanRow)
          else clean_sensor_dataframe fit' predict' cfg sid
            (aggregate_10min_windows
              ((rows.filter (fun r => r.sensor_id == sid)).map toMeasurement))) := by
        funext sid
        split
        · rfl
        · exact clean_sensor_disabled_indep fit predict fit' predict' cfg sid _ hoff
      rw [hfun]

/-- Witness for C1: under the default (forecast-disabled) configuration a
lone in-range sample passes through unlabelled, and swapping the oracle
pair does not change the output. -/
theorem forecast_disabled_witness :
    ({ sensor_id := "s", ts := 0, value_mm := 2, qc_flags := 0,
       imputation_method := none, version := 1 } : CleanRow).imputation_method ≠
      some "arima_forecast" ∧
    clean_measurements fitUnit predictNone cfgDefault
        [{ sensor_id := "s", ts := 0, value_mm := some 2, quality := none }] =
      clean_measurements fitFail predictOne cfgDefault
        [{ sensor_id := "s", ts := 0, value_mm := some 2, quality := none }] :=
  ⟨(forecast_disabled fitUnit predictNone fitFail predictOne cfgDefault
      [{ sensor_id := "s", ts := 0, value_mm := some 2, quality := none }] rfl).1
      { sensor_id := "s", ts := 0, value_mm := 2, qc_flags := 0,
        imputation_method := none, version := 1 } (by decide),
   (forecast_disabled fitUnit predictNone fitFail predictOne cfgDefault
      [{ sensor_id := "s", ts := 0, value_mm := some 2, quality := none }] rfl).2⟩

theorem medianOf_nil : medianOf [] = none := rfl

/-- On a series with no labeled point the forecast stage returns its input
unchanged (either the training guard fires or the last-valid lookup
raises into the outer handler). -/
theorem arima_noop_of_all_none {M : Type} (fit : List ℚ → ModelSpec → Option M)
    (predict : M → Nat → Option ℚ) (cfg : Config) {s : List (Option ℚ)}
    (h : ∀ j, j < s.length → atOpt s j = none) :
    arima_forecast_fill fit predict cfg s = (s, List.replicate s.length none) := by
  rcases arima_fill_cases fit predict cfg s with hc | ⟨m, lp, _, hlp, _, _, _⟩
  · exact hc
  · exfalso
    have hmem := List.mem_of_find?_eq_some hlp
    have hlt : lp < s.length := List.mem_range.mp (List.mem_reverse.mp hmem)
    have hpred := List.find?_some hlp
    rw [h lp hlt] at hpred
    exact Bool.noConfusion hpred

/-- Pointwise: on a series with no labeled point the pipeline's forecast
step changes nothing and labels nothing. -/
theorem arimaApplied_noop_of_all_none {M : Type} (fit : List ℚ → ModelSpec → Option M)
    (predict : M → Nat → Option ℚ) (cfg : Config) {v : List (Option ℚ)}
    (h : ∀ j, j < v.length → atOpt v j = none) {i : Nat} (hi : i < v.length) :
    atOpt (arimaApplied fit predict cfg v).1 i = none ∧
    atOpt (arimaApplied fit predict cfg v).2 i = none := by
  unfold arimaApplied
  split
  · rw [arima_noop_of_all_none fit predict cfg h]
    refine ⟨h i hi, ?_⟩
    rw [atOpt_seriesMap _ hi, h i hi]
    simp
  · exact ⟨h i hi, atOpt_replicate _ _⟩

/-- On a series with no labeled point no neighbour lookup succeeds. -/
theorem prevValid_none_of_all_none {v : List (Option ℚ)} {i : Nat}
    (h : ∀ j, j < v.length → atOpt v j = none) (hi : i ≤ v.length) :
    prevValid v i = none := by
  rw [prevValid, List.find?_eq_none]
  intro j hj
  have hjlt : j < i := List.mem_range.mp (List.mem_reverse.mp hj)
  rw [h j (by omega)]
  simp

theorem nextValid_none_of_all_none {v : List (Option ℚ)} {i : Nat}
    (h : ∀ j, j < v.length → atOpt v j = none) :
    nextValid v i = none := by
  rw [nextValid, List.find?_eq_none]
  intro j hj
  rw [h j (List.mem_range.mp hj)]
  simp

/-- C9 (amended: the fallback constant is also clamped, so the emitted
value is `0.0` provided `min_value_mm ≤ 0 ≤ max_value_mm`, the default
range): on an all-missing series every emitted row has value `0.0`, the
`"zero_fallback"` label, the `IMPUTED` bit set and the `OUTLIER` bit
clear. -/
theorem all_missing_zero_fallback {M : Type} (fit : List ℚ → ModelSpec → Option M)
    (predict : M → Nat → Option ℚ) (cfg : Config) (sid : String)
    (rows : List Measurement)
    (hmiss : ∀ r ∈ rows, r.value_mm = none)
    (hlo : cfg.min_value_mm ≤ 0) (hhi : (0 : ℚ) ≤ cfg.max_value_mm) :
    ∀ row ∈ clean_sensor_dataframe fit predict cfg sid rows,
      row.value_mm = 0 ∧ row.imputation_method = some "zero_fallback" ∧
      row.qc_flags &&& IMPUTED_FLAG ≠ 0 ∧ row.qc_flags &&& OUTLIER_FLAG = 0 := by
  intro row hrow
  rw [clean_sensor_eq_map] at hrow
  rcases List.mem_map.mp hrow with ⟨i, hmem, heq⟩
  have hiv : i < ((sortByTs rows).map (fun r => r.value_mm)).length :=
    List.mem_range.mp hmem
  subst heq
  have hlen : ((sortByTs rows).map (fun r => r.value_mm)).length = (sortByTs rows).length :=
    List.length_map _ _
  have hall : ∀ j, j < ((sortByTs rows).map (fun r => r.value_mm)).length →
      atOpt ((sortByTs rows).map (fun r => r.value_mm)) j = none := by
    intro j hj
    have hj' : j < (sortByTs rows).length := by rw [← hlen]; exact hj
    rw [atOpt, getD_map_of_lt _ none hj']
    exact hmiss _ (mem_sortByTs.mp (List.getElem_mem hj'))
  have hq1len : (qcApplied cfg ((sortByTs rows).map (fun r => r.value_mm))
      ((sortByTs rows).map (fun r => r.quality))).1.length =
      ((sortByTs rows).map (fun r => r.value_mm)).length :=
    qcApplied_fst_length _ _ _
  have hallq : ∀ j, j < (qcApplied cfg ((sortByTs rows).map (fun r => r.value_mm))
      ((sortByTs rows).map (fun r => r.quality))).1.length →
      atOpt (qcApplied cfg ((sortByTs rows).map (fun r => r.value_mm))
        ((sortByTs rows).map (fun r => r.quality))).1 j = none := by
    intro j hj
    rw [hq1len] at hj
    rw [qcApplied_fst_atOpt _ _ _ hj]
    rw [hall j hj]
    split
    · rfl
    · split
      · rfl
      · rfl
  have h3len : (arimaApplied fit predict cfg (qcApplied cfg
      ((sortByTs rows).map (fun r => r.value_mm))
      ((sortByTs rows).map (fun r => r.quality))).1).1.length =
      ((sortByTs rows).map (fun r => r.value_mm)).length := by
    rw [arimaApplied_fst_length, hq1len]
  have hiq : i < (qcApplied cfg ((sortByTs rows).map (fun r => r.value_mm))
      ((sortByTs rows).map (fun r => r.quality))).1.length := by
    rw [hq1len]; exact hiv
  have h3 := arimaApplied_noop_of_all_none fit predict cfg hallq hiq
  have hall3 : ∀ j, j < (arimaApplied fit predict cfg (qcApplied cfg
      ((sortByTs rows).map (fun r => r.value_mm))
      ((sortByTs rows).map (fun r => r.quality))).1).1.length →
      atOpt (arimaApplied fit predict cfg (qcApplied cfg
        ((sortByTs rows).map (fun r => r.value_mm))
        ((sortByTs rows).map (fun r => r.quality))).1).1 j = none := by
    intro j hj
    rw [arimaApplied_fst_length] at hj
    exact (arimaApplied_noop_of_all_none fit predict cfg hallq hj).1
  -- time interpolation: no anchors, so the stage fills nothing
  have hfill4 : ∀ j, j < (arimaApplied fit predict cfg (qcApplied cfg
      ((sortByTs rows).map (fun r => r.value_mm))
      ((sortByTs rows).map (fun r => r.quality))).1).1.length →
      atOpt (timeInterpolate cfg ((sortByTs rows).map (fun r => r.ts))
        (arimaApplied fit predict cfg (qcApplied cfg
          ((sortByTs rows).map (fun r => r.value_mm))
          ((sortByTs rows).map (fun r => r.quality))).1).1) j = none := by
    intro j hj
    rw [timeInterpolate, atOpt_seriesMap _ hj, hall3 j hj]
    have he : interpEligible cfg (arimaApplied fit predict cfg (qcApplied cfg
        ((sortByTs rows).map (fun r => r.value_mm))
        ((sortByTs rows).map (fun r => r.quality))).1).1 j = false := by
      rw [interpEligible,
          prevValid_none_of_all_none hall3 (by omega),
          nextValid_none_of_all_none hall3]
      rfl
    rw [he]
    simp
  have hi3 : i < (arimaApplied fit predict cfg (qcApplied cfg
      ((sortByTs rows).map (fun r => r.value_mm))
      ((sortByTs rows).map (fun r => r.quality))).1).1.length := by
    rw [h3len]; exact hiv
  have h4 : atOpt (interpApplied cfg ((sortByTs rows).map (fun r => r.ts))
      (arimaApplied fit predict cfg (qcApplied cfg
        ((sortByTs rows).map (fun r => r.value_mm))
        ((sortByTs rows).map (fun r => r.quality))).1)).1 i = none ∧
      atOpt (interpApplied cfg ((sortByTs rows).map (fun r => r.ts))
        (arimaApplied fit predict cfg (qcApplied cfg
          ((sortByTs rows).map (fun r => r.value_mm))
          ((sortByTs rows).map (fun r => r.quality))).1)).2 i =
        atOpt (arimaApplied fit predict cfg (qcApplied cfg
          ((sortByTs rows).map (fun r => r.value_mm))
          ((sortByTs rows).map (fun r => r.quality))).1).2 i :=
    stageFill_skips _ "time_interp" hi3 h3.1 (hfill4 i hi3)
  have h4lab : atOpt (interpApplied cfg ((sortByTs rows).map (fun r => r.ts))
      (arimaApplied fit predict cfg (qcApplied cfg
        ((sortByTs rows).map (fun r => r.value_mm))
        ((sortByTs rows).map (fun r => r.quality))).1)).2 i = none := by
    rw [h4.2]
    exact h3.2
  have h4len : (interpApplied cfg ((sortByTs rows).map (fun r => r.ts))
      (arimaApplied fit predict cfg (qcApplied cfg
        ((sortByTs rows).map (fun r => r.value_mm))
        ((sortByTs rows).map (fun r => r.quality))).1)).1.length =
      ((sortByTs rows).map (fun r => r.value_mm)).length := by
    rw [interpApplied_fst_length, h3len]
  have hall4 : ∀ j, j < (interpApplied cfg ((sortByTs rows).map (fun r => r.ts))
      (arimaApplied fit predict cfg (qcApplied cfg
        ((sortByTs rows).map (fun r => r.value_mm))
        ((sortByTs rows).map (fun r => r.quality))).1)).1.length →
      atOpt (interpApplied cfg ((sortByTs rows).map (fun r => r.ts))
        (arimaApplied fit predict cfg (qcApplied cfg
          ((sortByTs rows).map (fun r => r.value_mm))
          ((sortByTs rows).map (fun r => r.quality))).1)).1 j = none := by
    intro j hj
    rw [interpApplied_fst_length] at hj
    exact (stageFill_skips _ "time_interp" hj (hall3 j hj) (hfill4 j hj)).1
  -- hourly medians: no labeled data at any hour
  have hfill5 : ∀ j, hourMedian ((sortByTs rows).map (fun r => r.ts))
      (interpApplied cfg ((sortByTs rows).map (fun r => r.ts))
        (arimaApplied fit predict cfg (qcApplied cfg
          ((sortByTs rows).map (fun r => r.value_mm))
          ((sortByTs rows).map (fun r => r.quality))).1)).1 j = none := by
    intro j
    rw [hourMedian]
    have hv : hourValues ((sortByTs rows).map (fun r => r.ts))
        (interpApplied cfg ((sortByTs rows).map (fun r => r.ts))
          (arimaApplied fit predict cfg (qcApplied cfg
            ((sortByTs rows).map (fun r => r.value_mm))
            ((sortByTs rows).map (fun r => r.quality))).1)).1 j = [] := by
      rw [hourValues, List.filterMap_eq_nil_iff]
      intro a ha
      have halt := List.mem_range.mp ha
      split
      · exact hall4 a halt
      · rfl
    rw [hv, medianOf_nil]
  have hi4 : i < (interpApplied cfg ((sortByTs rows).map (fun r => r.ts))
      (arimaApplied fit predict cfg (qcApplied cfg
        ((sortByTs rows).map (fun r => r.value_mm))
        ((sortByTs rows).map (fun r => r.quality))).1)).1.length := by
    rw [h4len]; exact hiv
  have h5 : atOpt (hourApplied ((sortByTs rows).map (fun r => r.ts))
      (interpApplied cfg ((sortByTs rows).map (fun r => r.ts))
        (arimaApplied fit predict cfg (qcApplied cfg
          ((sortByTs rows).map (fun r => r.value_mm))
          ((sortByTs rows).map (fun r => r.quality))).1))).1 i = none ∧
      atOpt (hourApplied ((sortByTs rows).map (fun r => r.ts))
        (interpApplied cfg ((sortByTs rows).map (fun r => r.ts))
          (arimaApplied fit predict cfg (qcApplied cfg
            ((sortByTs rows).map (fun r => r.value_mm))
            ((sortByTs rows).map (fun r => r.quality))).1))).2 i =
        atOpt (interpApplied cfg ((sortByTs rows).map (fun r => r.ts))
          (arimaApplied fit predict cfg (qcApplied cfg
            ((sortByTs rows).map (fun r => r.value_mm))
            ((sortByTs rows).map (fun r => r.quality))).1)).2 i :=
    stageFill_skips _ "hour_median" hi4 (hall4 i hi4)
      (hfill5 (hourOf (((sortByTs rows).map (fun r => r.ts)).getD i 0)))
  -- zero fallback fills the point
  have hi5 : i < (hourApplied ((sortByTs rows).map (fun r => r.ts))
      (interpApplied cfg ((sortByTs rows).map (fun r => r.ts))
        (arimaApplied fit predict cfg (qcApplied cfg
          ((sortByTs rows).map (fun r => r.value_mm))
          ((sortByTs rows).map (fun r => r.quality))).1))).1.length := by
    rw [hourApplied_fst_length, h4len]; exact hiv
  have h6 : atOpt (cascadeApplied fit predict cfg
      ((sortByTs rows).map (fun r => r.ts))
      (qcApplied cfg ((sortByTs rows).map (fun r => r.value_mm))
        ((sortByTs rows).map (fun r => r.quality))).1).1 i = some 0 ∧
      atOpt (cascadeApplied fit predict cfg
        ((sortByTs rows).map (fun r => r.ts))
        (qcApplied cfg ((sortByTs rows).map (fun r => r.value_mm))
          ((sortByTs rows).map (fun r => r.quality))).1).2 i = some "zero_fallback" :=
    stageFill_fills (fun _ => some 0) "zero_fallback" hi5 h5.1 rfl
  -- assemble the emitted row
  simp only [emittedRowAt]
  rw [h6.1, h6.2]
  have hob : (outlierMask cfg ((sortByTs rows).map (fun r => r.value_mm))).getD i false = false :=
    outlierMask_getD_none (hall i hiv)
  rw [qcApplied_snd_getD _ _ _ hiv, hob]
  refine ⟨?_, rfl, ?_, ?_⟩
  · show clip ((some (0:ℚ)).getD 0) cfg.min_value_mm cfg.max_value_mm = 0
    show clip 0 cfg.min_value_mm cfg.max_value_mm = 0
    exact clip_of_mem hlo hhi
  · rcases hpb : (poorMask cfg ((sortByTs rows).map (fun r => r.quality))).getD i false with _ | _
    · rw [hpb]
      decide
    · rw [hpb]
      decide
  · rcases hpb : (poorMask cfg ((sortByTs rows).map (fun r => r.quality))).getD i false with _ | _
    · rw [hpb]
      decide
    · rw [hpb]
      decide

/-- Witness for C9: a one-point all-missing series under the default
configuration. -/
theorem all_missing_zero_fallback_witness :
    ({ sensor_id := "s", ts := 0, value_mm := 0, qc_flags := 2,
       imputation_method := some "zero_fallback", version := 1 } : CleanRow).value_mm = 0 ∧
    ({ sensor_id := "s", ts := 0, value_mm := 0, qc_flags := 2,
       imputation_method := some "zero_fallback", version := 1 } : CleanRow).imputation_method =
      some "zero_fallback" ∧
    ({ sensor_id := "s", ts := 0, value_mm := 0, qc_flags := 2,
       imputation_method := some "zero_fallback", version := 1 } : CleanRow).qc_flags
      &&& IMPUTED_FLAG ≠ 0 ∧
    ({ sensor_id := "s", ts := 0, value_mm := 0, qc_flags := 2,
       imputation_method := some "zero_fallback", version := 1 } : CleanRow).qc_flags
      &&& OUTLIER_FLAG = 0 :=
  all_missing_zero_fallback fitUnit predictNone cfgDefault "s"
    [{ ts := 0, value_mm := none, quality := none }]
    (by decide) (by decide) (by decide)
    { sensor_id := "s", ts := 0, value_mm := 0, qc_flags := 2,
      imputation_method := some "zero_fallback", version := 1 }
    (by decide)

/-- Counterexample to C9 as stated (for *every* configuration): with a
positive physical floor `min_value_mm = 5` the fallback `0` is clamped up
to `5`, so the emitted value is not `0.0`. -/
theorem all_missing_zero_fallback_counterexample :
    (clean_sensor_dataframe fitUnit predictNone cfgMin5 "s"
      [{ ts := 0, value_mm := none, quality := none }]).map
        (fun row => row.value_mm) = [5] ∧
    cfgMin5.min_value_mm = 5 ∧ ((5 : ℚ) ≠ 0) := by
  decide

theorem arimaTrainData_eq (s : List (Option ℚ)) :
    arimaTrainData s = s.filterMap (fun o => o) := by
  induction s with
  | nil => rfl
  | cons a l ih =>
    rcases a with _ | x
    · simp only [arimaTrainData, List.filter_cons, List.filterMap_cons] at *
      simp only [Option.isSome_none, Bool.false_eq_true, if_false]
      exact ih
    · simp only [arimaTrainData, List.filter_cons, List.filterMap_cons] at *
      simp only [Option.isSome_some, if_true]
      rw [List.filterMap_cons]
      simp only [ih]

/-- C6 (amended: the classical forecast stage fits its model on *all*
labeled (non-null) values of the working series, in time order — not just
the trailing contiguous run): the training set handed to the ARIMA
constructor is exactly `s.filterMap id`, and the stage's output depends on
the fit oracle only through its value on that training set. -/
theorem arima_fit_uses_all_labeled {M : Type}
    (fit fit' : List ℚ → ModelSpec → Option M) (predict : M → Nat → Option ℚ)
    (cfg : Config) (s : List (Option ℚ))
    (h : ∀ spec, fit (arimaTrainData s) spec = fit' (arimaTrainData s) spec) :
    arimaTrainData s = s.filterMap (fun o => o) ∧
    arima_forecast_fill fit predict cfg s = arima_forecast_fill fit' predict cfg s := by
  refine ⟨arimaTrainData_eq s, ?_⟩
  simp only [arima_forecast_fill]
  rw [h]

/-- Witness for the amended C6 on the split series `[5, ·, 1, ·]`. -/
theorem arima_fit_uses_all_labeled_witness :
    arimaTrainData exSplitSeries = exSplitSeries.filterMap (fun o => o) ∧
    arima_forecast_fill fitData predictHead cfgArima exSplitSeries =
      arima_forecast_fill fitData predictHead cfgArima exSplitSeries :=
  arima_fit_uses_all_labeled fitData fitData predictHead cfgArima exSplitSeries
    (fun _ => rfl)

/-- Counterexample to C6 as stated: on `[5, ·, 1, ·]` the training data is
`[5, 1]` while the longest contiguous trailing run of labeled data is
`[1]`; the gap at position 3 is filled from the fitted model's first
training observation `5`, showing data outside the trailing run reaches
the fit. -/
theorem arima_trailing_run_counterexample :
    arimaTrainData exSplitSeries = [5, 1] ∧
    trailingLabeledRun exSplitSeries = [1] ∧
    arimaTrainData exSplitSeries ≠ trailingLabeledRun exSplitSeries ∧
    (arima_forecast_fill fitData predictHead cfgArima exSplitSeries).1 =
      [some 5, none, some 1, some 5] := by
  decide

/-- C7 (amended: a *single-point prediction* failure is caught and skips
only that point — every other eligible point with a successful prediction
is still filled; a *fit* failure is caught but aborts the whole forecast
stage, which then fills nothing; in both cases the stage returns a
well-formed series and the surrounding cascade continues). -/
theorem arima_failure_isolation :
    (∀ (M : Type) (fit : List ℚ → ModelSpec → Option M)
       (predict : M → Nat → Option ℚ) (cfg : Config) (s : List (Option ℚ)),
       fit (arimaTrainData s) (specOf cfg (arimaTrainData s).length) = none →
       arima_forecast_fill fit predict cfg s = (s, List.replicate s.length none)) ∧
    (∀ (M : Type) (fit : List ℚ → ModelSpec → Option M)
       (predict : M → Nat → Option ℚ) (cfg : Config) (s : List (Option ℚ))
       (m : M) (lp i : Nat) (v : ℚ),
       fit (arimaTrainData s) (specOf cfg (arimaTrainData s).length) = some m →
       cfg.arima_min_train ≤ (s.filter (fun o => o.isSome)).length →
       lastValidPos s = some lp →
       i < s.length → atOpt s i = none → lp < i → i - lp ≤ 100 →
       predict m (i - lp) = some v →
       atOpt (arima_forecast_fill fit predict cfg s).1 i =
         some (clip v cfg.min_value_mm cfg.max_value_mm) ∧
       atOpt (arima_forecast_fill fit predict cfg s).2 i = some "arima_forecast") ∧
    (∀ (M : Type) (fit : List ℚ → ModelSpec → Option M)
       (predict : M → Nat → Option ℚ) (cfg : Config) (s : List (Option ℚ))
       (m : M) (lp i : Nat),
       fit (arimaTrainData s) (specOf cfg (arimaTrainData s).length) = some m →
       cfg.arima_min_train ≤ (s.filter (fun o => o.isSome)).length →
       lastValidPos s = some lp →
       i < s.length → atOpt s i = none → lp < i → i - lp ≤ 100 →
       predict m (i - lp) = none →
       atOpt (arima_forecast_fill fit predict cfg s).1 i = none ∧
       atOpt (arima_forecast_fill fit predict cfg s).2 i = none) ∧
    (∀ (M : Type) (fit : List ℚ → ModelSpec → Option M)
       (predict : M → Nat → Option ℚ) (cfg : Config) (s : List (Option ℚ)),
       (arima_forecast_fill fit predict cfg s).1.length = s.length) := by
  refine ⟨?_, ?_, ?_, ?_⟩
  · intro M fit predict cfg s hfit
    rcases arima_fill_cases fit predict cfg s with hc | ⟨m, lp, hf, _, _, _, _⟩
    · exact hc
    · rw [hfit] at hf
      exact Option.noConfusion hf
  · intro M fit predict cfg s m lp i v hfit hmin hlp hi hnone hlpi hle hpred
    have hnotlt : ¬ (s.filter (fun o => o.isSome)).length < cfg.arima_min_train :=
      not_lt.mpr hmin
    have hnotall : ¬ (s.all (fun o => o.isSome)) = true := by
      intro hall
      have hsi := (List.all_eq_true.mp hall) s[i] (List.getElem_mem hi)
      rw [← atOpt_eq_getElem hi, hnone] at hsi
      exact Bool.noConfusion hsi
    simp only [arima_forecast_fill, if_neg hnotlt, if_neg hnotall, hfit, hlp]
    constructor
    · rw [atOpt_map_fst_seriesMap _ hi]
      simp only [arimaPoint, hnone, Option.isSome_none, Bool.false_eq_true,
        if_false, if_neg (not_le.mpr hlpi), if_neg (not_lt.mpr hle), hpred]
    · rw [atOpt_map_snd_seriesMap _ hi]
      simp only [arimaPoint, hnone, Option.isSome_none, Bool.false_eq_true,
        if_false, if_neg (not_le.mpr hlpi), if_neg (not_lt.mpr hle), hpred]
  · intro M fit predict cfg s m lp i hfit hmin hlp hi hnone hlpi hle hpred
    have hnotlt : ¬ (s.filter (fun o => o.isSome)).length < cfg.arima_min_train :=
      not_lt.mpr hmin
    have hnotall : ¬ (s.all (fun o => o.isSome)) = true := by
      intro hall
      have hsi := (List.all_eq_true.mp hall) s[i] (List.getElem_mem hi)
      rw [← atOpt_eq_getElem hi, hnone] at hsi
      exact Bool.noConfusion hsi
    simp only [arima_forecast_fill, if_neg hnotlt, if_neg hnotall, hfit, hlp]
    constructor
    · rw [atOpt_map_fst_seriesMap _ hi]
      simp only [arimaPoint, hnone, Option.isSome_none, Bool.false_eq_true,
        if_false, if_neg (not_le.mpr hlpi), if_neg (not_lt.mpr hle), hpred]
    · rw [atOpt_map_snd_seriesMap _ hi]
      simp only [arimaPoint, hnone, Option.isSome_none, Bool.false_eq_true,
        if_false, if_neg (not_le.mpr hlpi), if_neg (not_lt.mpr hle), hpred]
  · intro M fit predict cfg s
    exact arima_fill_fst_length fit predict cfg s

/-- Witness for the amended C7: a fit failure on `[1, ·]` fills nothing; a
successful fit on `[5, ·, 1, ·]` fills the eligible trailing gap; a
prediction failure on `[1, ·]` skips exactly that point. -/
theorem arima_failure_isolation_witness :
    arima_forecast_fill fitFail predictOne cfgArima exGapSeries =
      (exGapSeries, List.replicate exGapSeries.length none) ∧
    atOpt (arima_forecast_fill fitData predictHead cfgArima exSplitSeries).1 3 =
      some (clip 5 cfgArima.min_value_mm cfgArima.max_value_mm) ∧
    atOpt (arima_forecast_fill fitUnit predictNone cfgArima exGapSeries).1 1 = none ∧
    (arima_forecast_fill fitFail predictOne cfgArima exGapSeries).1.length =
      exGapSeries.length := by
  refine ⟨?_, ?_, ?_, ?_⟩
  · exact arima_failure_isolation.1 Unit fitFail predictOne cfgArima exGapSeries rfl
  · exact (arima_failure_isolation.2.1 (List ℚ) fitData predictHead cfgArima
      exSplitSeries [5, 1] 2 3 5 (by decide) (by decide) (by decide) (by decide)
      (by decide) (by decide) (by decide) (by decide)).1
  · exact (arima_failure_isolation.2.2.1 Unit fitUnit predictNone cfgArima
      exGapSeries () 0 1 (by decide) (by decide) (by decide) (by decide)
      (by decide) (by decide) (by decide) (by decide)).1
  · exact arima_failure_isolation.2.2.2 Unit fitFail predictOne cfgArima exGapSeries

/-- Counterexample to C7 as stated: on `[1, ·]`, position 1 is an eligible
missing point (one step past the last valid point) and the per-point
forecast oracle succeeds there, yet the caught *fit* failure leaves the
whole stage empty-handed: the point is skipped even though it is not the
point that failed. -/
theorem arima_fit_failure_counterexample :
    arima_forecast_fill fitFail predictOne cfgArima exGapSeries =
      (exGapSeries, [none, none]) ∧
    atOpt exGapSeries 1 = none ∧
    lastValidPos exGapSeries = some 0 ∧ (0 < 1 ∧ 1 - 0 ≤ 100) ∧
    predictOne () 1 = some 1 := by
  decide

theorem mem_insertKey {a k : Nat} {ks : List Nat} :
    a ∈ insertKey k ks ↔ a = k ∨ a ∈ ks := by
  induction ks with
  | nil => simp [insertKey]
  | cons x xs ih =>
    unfold insertKey
    split
    · simp
    · split
      · rename_i hkx
        subst hkx
        simp only [List.mem_cons]
        tauto
      · simp only [List.mem_cons, ih]
        tauto

theorem pairwise_insertKey {k : Nat} {ks : List Nat}
    (h : List.Pairwise (· < ·) ks) :
    List.Pairwise (· < ·) (insertKey k ks) := by
  induction ks with
  | nil => simp [insertKey]
  | cons x xs ih =>
    rcases List.pairwise_cons.mp h with ⟨hx, hxs⟩
    unfold insertKey
    split
    · rename_i hkx
      rw [List.pairwise_cons]
      refine ⟨?_, h⟩
      intro a ha
      rcases List.mem_cons.mp ha with rfl | ha2
      · exact hkx
      · exact lt_trans hkx (hx a ha2)
    · split
      · exact h
      · rename_i hnlt hne
        rw [List.pairwise_cons]
        refine ⟨?_, ih hxs⟩
        intro a ha
        rcases mem_insertKey.mp ha with rfl | ha2
        · omega
        · exact hx a ha2

theorem mem_bucketKeys {a : Nat} {rows : List Measurement} :
    a ∈ bucketKeys rows ↔ ∃ r ∈ rows, bucketOf r.ts = a := by
  induction rows with
  | nil => simp [bucketKeys]
  | cons r rest ih =>
    show a ∈ insertKey (bucketOf r.ts) (bucketKeys rest) ↔ _
    rw [mem_insertKey, ih]
    constructor
    · intro h
      rcases h with rfl | ⟨r', hr', hr2⟩
      · exact ⟨r, List.mem_cons_self r rest, rfl⟩
      · exact ⟨r', List.mem_cons_of_mem r hr', hr2⟩
    · intro ⟨r', hr', hr2⟩
      rcases List.mem_cons.mp hr' with rfl | h2
      · exact Or.inl hr2.symm
      · exact Or.inr ⟨r', h2, hr2⟩

theorem pairwise_bucketKeys (rows : List Measurement) :
    List.Pairwise (· < ·) (bucketKeys rows) := by
  induction rows with
  | nil => simp [bucketKeys]
  | cons r rest ih => exact pairwise_insertKey ih

/-- Inserting already-sorted distinct keys in order reproduces the list. -/
theorem foldr_insertKey_sorted (l : List Nat) (h : List.Pairwise (· < ·) l) :
    l.foldr insertKey [] = l := by
  induction l with
  | nil => rfl
  | cons a l ih =>
    rcases List.pairwise_cons.mp h with ⟨ha, hl⟩
    show insertKey a (l.foldr insertKey []) = a :: l
    rw [ih hl]
    cases l with
    | nil => rfl
    | cons b l' =>
      unfold insertKey
      rw [if_pos (ha b (List.mem_cons_self b l'))]

/-- Every aggregated row sits on a bucket boundary and has a value. -/
theorem mem_aggregate {rows : List Measurement} {r' : Measurement}
    (h : r' ∈ aggregate_10min_windows rows) :
    r'.ts = bucketOf r'.ts ∧ r'.value_mm.isSome = true := by
  rw [aggregate_10min_windows] at h
  split at h
  · exact absurd h (List.not_mem_nil r')
  · rcases List.mem_filterMap.mp h with ⟨k, hk, hF⟩
    rcases mem_bucketKeys.mp hk with ⟨r, _, hbk⟩
    rcases hmax : maxOfList ((groupRows rows k).filterMap (fun r => r.value_mm)) with _ | mx
    · simp only [hmax] at hF
      exact Option.noConfusion hF
    · simp only [hmax] at hF
      have heq := Option.some.inj hF
      subst heq
      refine ⟨?_, rfl⟩
      show k = bucketOf k
      rw [← hbk, bucketOf_idem]

theorem pairwise_filterMap_keys (F : Nat → Option Measurement) :
    ∀ (keys : List Nat), List.Pairwise (· < ·) keys →
    (∀ k r', F k = some r' → r'.ts = k) →
    List.Pairwise (fun a b => a.ts < b.ts) (keys.filterMap F) := by
  intro keys
  induction keys with
  | nil =>
    intro _ _
    exact List.Pairwise.nil
  | cons k ks ih =>
    intro hp hts
    rcases List.pairwise_cons.mp hp with ⟨hk, hks⟩
    rw [List.filterMap_cons]
    split
    · exact ih hks hts
    · rename_i r' hFk
      rw [List.pairwise_cons]
      refine ⟨?_, ih hks hts⟩
      intro b hb
      rcases List.mem_filterMap.mp hb with ⟨k', hk', hFk'⟩
      rw [hts k r' hFk, hts k' b hFk']
      exact hk k' hk'

/-- The aggregated timestamps are strictly increasing. -/
theorem pairwise_aggregate (rows : List Measurement) :
    List.Pairwise (fun a b => a.ts < b.ts) (aggregate_10min_windows rows) := by
  rw [aggregate_10min_windows]
  split
  · exact List.Pairwise.nil
  · apply pairwise_filterMap_keys _ _ (pairwise_bucketKeys rows)
    intro k r' hF
    rcases hmax : maxOfList ((groupRows rows k).filterMap (fun r => r.value_mm)) with _ | mx
    · simp only [hmax] at hF
      exact Option.noConfusion hF
    · simp only [hmax] at hF
      have heq := Option.some.inj hF
      subst heq
      rfl

/-- On an already-bucketed frame with strictly increasing timestamps, the
bucket group of a row's own timestamp is that row alone. -/
theorem groupRows_self_singleton {l : List Measurement} {r : Measurement}
    (hp : List.Pairwise (fun a b => a.ts < b.ts) l)
    (hb : ∀ x ∈ l, bucketOf x.ts = x.ts)
    (hr : r ∈ l) :
    groupRows l r.ts = [r] := by
  induction l with
  | nil => cases hr
  | cons a l ih =>
    rcases List.pairwise_cons.mp hp with ⟨ha, hl⟩
    rcases List.mem_cons.mp hr with rfl | hrl
    · rw [groupRows, List.filter_cons]
      have hca : (bucketOf r.ts == r.ts) = true := by
        rw [hb r (List.mem_cons_self r l)]
        exact beq_iff_eq.mpr rfl
      rw [if_pos hca]
      have hnil : l.filter (fun x => bucketOf x.ts == r.ts) = [] := by
        rw [List.filter_eq_nil_iff]
        intro x hx hcx
        rw [hb x (List.mem_cons_of_mem r hx)] at hcx
        have hxr := beq_iff_eq.mp hcx
        have := ha x hx
        omega
      rw [hnil]
    · rw [groupRows, List.filter_cons]
      have hca : (bucketOf a.ts == r.ts) = false := by
        rw [hb a (List.mem_cons_self a l)]
        have := ha r hrl
        exact beq_eq_false_iff_ne.mpr (by omega)
      rw [hca]
      simp only [Bool.false_eq_true, if_false]
      exact ih hl (fun x hx => hb x (List.mem_cons_of_mem a hx)) hrl

/-- A frame that already looks like aggregator output (bucket-aligned,
strictly increasing timestamps, non-null values) is a fixed point of the
aggregator. -/
theorem aggregate_fixed_point {out : List Measurement}
    (hpair : List.Pairwise (fun a b => a.ts < b.ts) out)
    (hprops : ∀ x ∈ out, bucketOf x.ts = x.ts ∧ x.value_mm.isSome = true) :
    aggregate_10min_windows out = out := by
  rcases hne : out with _ | ⟨r0, rest⟩
  · rfl
  · rw [← hne]
    rw [aggregate_10min_windows, if_neg (by rw [hne]; simp)]
    have hA : bucketKeys out = out.map (fun r => r.ts) := by
      have h1 : bucketKeys out = (out.map (fun r => bucketOf r.ts)).foldr insertKey [] := by
        rw [bucketKeys, List.foldr_map]
      have h2 : out.map (fun r => bucketOf r.ts) = out.map (fun r => r.ts) :=
        List.map_congr_left (fun x hx => (hprops x hx).1)
      rw [h1, h2, foldr_insertKey_sorted]
      exact List.pairwise_map.mpr hpair
    rw [hA, List.filterMap_map]
    have hpt : ∀ r ∈ out,
        ((fun k =>
          let grp := groupRows out k
          match maxOfList (grp.filterMap (fun x => x.value_mm)) with
          | none => none
          | some mx =>
            some { ts := k, value_mm := some mx,
                   quality := meanOf (grp.filterMap (fun x => x.quality)) }) ∘
          (fun r => r.ts)) r = some (id r) := by
      intro r hr
      have hgrp := groupRows_self_singleton hpair (fun x hx => (hprops x hx).1) hr
      rcases hv : r.value_mm with _ | v
      · have := (hprops r hr).2
        rw [hv] at this
        exact Bool.noConfusion this
      · show (let grp := groupRows out r.ts
          match maxOfList (grp.filterMap (fun x => x.value_mm)) with
          | none => none
          | some mx =>
            some { ts := r.ts, value_mm := some mx,
                   quality := meanOf (grp.filterMap (fun x => x.quality)) }) = some r
        simp only [hgrp, List.filterMap_cons, List.filterMap_nil, hv]
        rcases hq : r.quality with _ | q
        · simp only [hq, maxOfList, List.foldl_nil, meanOf]
          rcases r with ⟨t, vm, qm⟩
          simp only at hv hq
          rw [hv, hq]
        · simp only [hq, maxOfList, List.foldl_nil, meanOf]
          have hmean : (0 + q) / ((1 : Nat) : ℚ) = q := by
            push_cast
            rw [zero_add, div_one]
          rcases r with ⟨t, vm, qm⟩
          simp only at hv hq ⊢
          rw [hv, hq]
          simp only [List.length_cons, List.length_nil, List.foldl_cons, List.foldl_nil]
          rw [hmean]
    rw [filterMap_eq_map_of_forall out _ id hpt, List.map_id]

/-- C8: `_aggregate_10min_windows` is idempotent — applied to a frame that
is already its own output it returns the very same rows: same timestamps,
same values, same quality values. -/
theorem aggregate_10min_windows_idempotent (rows : List Measurement) :
    aggregate_10min_windows (aggregate_10min_windows rows) =
      aggregate_10min_windows rows :=
  aggregate_fixed_point (pairwise_aggregate rows)
    (fun _ hx => ⟨(mem_aggregate hx).1.symm, (mem_aggregate hx).2⟩)

end Cleaner
